import Mathlib

/-!
# Sudoku engine (`Sudoku.hpp`, `Sudoku.cpp`, `puzzles.cpp`)

A shallow embedding of the `Sudoku` class.

* `std::vector<std::vector<int>>` is a `List (List Int)`; element access `v[i]` is
  `List.getD` and element assignment is `List.set`.
* `std::set<int>` is a `List Int` holding the elements in iteration order.  `count(x) > 0`
  is membership, `erase(x)` drops the element equal to `x`, `insert(x)` places `x` at its
  ordered position unless it is already present, and `std::set_intersection` into an
  inserter keeps the elements of the first range that occur in the second.
* A `Cell` holds natural numbers: every cell of the program comes from the loop counters
  `0 .. size - 1` or is `{ 0, 0 }`, so the tests `row >= 0` and `col >= 0` always hold.
* `assert(e)` is a guard: when `e` is false the operation stops with `Fault.assertion`.
* `throw std::runtime_error(...)` in the constructor is an `Except.error` carrying the
  kind of the message thrown.
* `solve` is recursive; `solveFuel` carries the recursion depth budget explicitly, and
  `solve` runs it with a budget of 82 (the grid has 81 cells).
-/

namespace Sudoku

/-- Kinds of abnormal stop of an engine operation: a failed `assert`, or the recursion
budget of `solveFuel` used up. -/
inductive Fault where
  | assertion
  | outOfFuel
  deriving DecidableEq, Repr

/-- The three kinds of `std::runtime_error` thrown by the constructor
("Sudoku must contain 9 rows/columns", "Can only accept cell values 1 through 9!",
"Invalid initial puzzle grid!"), and a failed `assert` inside it. -/
inductive CtorError where
  | ShapeError
  | ValueError
  | ConflictError
  | aborted
  deriving DecidableEq, Repr

/-- The constant `Sudoku::size`. -/
def size : Nat := 9

/-- The constant `Sudoku::boxsize`. -/
def boxsize : Nat := 3

/-- The constant `Sudoku::blank`. -/
def blank : Int := 0

/-- The struct `Sudoku::Cell`. -/
structure Cell where
  row : Nat
  col : Nat
  deriving DecidableEq, Repr

end Sudoku

deriving instance DecidableEq for Except

/-- The data members of class `Sudoku`. -/
structure Sudoku where
  grid : List (List Int)
  rowCandidates : List (List Int)
  colCandidates : List (List Int)
  boxCandidates : List (List Int)
  deriving DecidableEq, Repr

namespace Sudoku

/-- Read `v[i][j]` of a vector of vectors. -/
def cellAt (g : List (List Int)) (i j : Nat) : Int :=
  (g.getD i []).getD j 0

/-- Assignment `v[i][j] = x` of a vector of vectors. -/
def setCell (g : List (List Int)) (i j : Nat) (x : Int) : List (List Int) :=
  g.set i ((g.getD i []).set j x)

/-- Read `regs[k]` of a vector of sets. -/
def slot (regs : List (List Int)) (k : Nat) : List Int :=
  regs.getD k []

/-- The member function `std::set<int>::erase(num)`. -/
def setErase (l : List Int) (num : Int) : List Int :=
  l.filter (fun x => x != num)

/-- The member function `std::set<int>::insert(num)`. -/
def setInsert : List Int → Int → List Int
  | [], num => [num]
  | x :: xs, num =>
    if num < x then num :: x :: xs
    else if num = x then x :: xs
    else x :: setInsert xs num

/-- The algorithm `std::set_intersection(a, b, inserter)` on two sets. -/
def setIntersection (a b : List Int) : List Int :=
  a.filter (fun x => b.contains x)

/-- The member function `Sudoku::getBox`. -/
def getBox (cell : Cell) : Nat :=
  let boxRow := cell.row / boxsize
  let boxCol := cell.col / boxsize
  (boxRow * boxsize) + boxCol

/-- The bounds assertion shared by `set`, `unset` and `getCandidates`
(`cell.row >= 0 && cell.row < size && cell.col >= 0 and cell.col < size`). -/
def inBounds (cell : Cell) : Bool :=
  decide (cell.row < size) && decide (cell.col < size)

/-- The member function `Sudoku::set`: the flag returned and the state afterwards. -/
def set (s : Sudoku) (cell : Cell) (num : Int) : Except Fault (Bool × Sudoku) :=
  if !inBounds cell then .error .assertion
  else if !(decide (1 ≤ num) && decide (num ≤ 9)) then .error .assertion
  else
    let box := getBox cell
    if (slot s.rowCandidates cell.row).contains num &&
       (slot s.colCandidates cell.col).contains num &&
       (slot s.boxCandidates box).contains num then
      .ok (true,
        { grid := setCell s.grid cell.row cell.col num
          rowCandidates := s.rowCandidates.set cell.row (setErase (slot s.rowCandidates cell.row) num)
          colCandidates := s.colCandidates.set cell.col (setErase (slot s.colCandidates cell.col) num)
          boxCandidates := s.boxCandidates.set box (setErase (slot s.boxCandidates box) num) })
    else
      .ok (false, s)

/-- The member function `Sudoku::unset`. -/
def unset (s : Sudoku) (cell : Cell) : Except Fault Sudoku :=
  if !inBounds cell then .error .assertion
  else if cellAt s.grid cell.row cell.col = blank then .ok s
  else
    let box := getBox cell
    let num := cellAt s.grid cell.row cell.col
    if !(decide (1 ≤ num) && decide (num ≤ 9)) then .error .assertion
    else
      .ok
        { grid := setCell s.grid cell.row cell.col blank
          rowCandidates := s.rowCandidates.set cell.row (setInsert (slot s.rowCandidates cell.row) num)
          colCandidates := s.colCandidates.set cell.col (setInsert (slot s.colCandidates cell.col) num)
          boxCandidates := s.boxCandidates.set box (setInsert (slot s.boxCandidates box) num) }

/-- The member function `Sudoku::getCandidates`. -/
def getCandidates (s : Sudoku) (cell : Cell) : Except Fault (List Int) :=
  if !inBounds cell then .error .assertion
  else
    let tmp := setIntersection (slot s.rowCandidates cell.row) (slot s.colCandidates cell.col)
    let box := getBox cell
    let candidates := setIntersection (slot s.boxCandidates box) tmp
    if !decide (candidates.length ≤ 9) then .error .assertion
    else .ok candidates

/-- The cells visited by `for (i = 0; i < size; ++i) for (j = 0; j < size; ++j)`,
in visiting order. -/
def allCells : List Cell :=
  (List.range size).flatMap (fun i => (List.range size).map (fun j => Cell.mk i j))

/-- The loop variables of `getSmallestCandidate`. -/
structure Scan where
  smallest : Nat
  cell : Cell
  candidates : List Int
  deriving DecidableEq, Repr

/-- The body of the two nested loops of `Sudoku::getSmallestCandidate`, run over the
cells still to visit. -/
def scanCells (s : Sudoku) : List Cell → Scan → Except Fault Scan
  | [], st => .ok st
  | c :: cs, st =>
    if cellAt s.grid c.row c.col = blank then
      match getCandidates s c with
      | .error e => .error e
      | .ok tmp =>
        if tmp.length < st.smallest then
          scanCells s cs { smallest := tmp.length, cell := c, candidates := tmp }
        else
          scanCells s cs st
    else
      scanCells s cs st

/-- The member function `Sudoku::getSmallestCandidate`; the two reference parameters are
passed in and returned. -/
def getSmallestCandidate (s : Sudoku) (cell : Cell) (candidates : List Int) :
    Except Fault (Cell × List Int) :=
  match scanCells s allCells { smallest := 10, cell := cell, candidates := candidates } with
  | .error e => .error e
  | .ok st =>
    if !decide (st.candidates.length ≤ 9) then .error .assertion
    else .ok (st.cell, st.candidates)

/-- The loop `for (const auto& val : candidates)` of `Sudoku::solve`; `recur` is the
recursive call `solve()`. -/
def tryCandidates (recur : Sudoku → Except Fault (Bool × Sudoku)) (cell : Cell) :
    List Int → Sudoku → Except Fault (Bool × Sudoku)
  | [], s => .ok (false, s)
  | val :: rest, s =>
    match set s cell val with
    | .error e => .error e
    | .ok (ret, s1) =>
      if !ret then .error .assertion
      else
        match recur s1 with
        | .error e => .error e
        | .ok (true, s2) => .ok (true, s2)
        | .ok (false, s2) =>
          match unset s2 cell with
          | .error e => .error e
          | .ok s3 => tryCandidates recur cell rest s3

/-- The body of `Sudoku::solve`; `recur` is the recursive call `solve()`. -/
def solveBody (recur : Sudoku → Except Fault (Bool × Sudoku)) (s : Sudoku) :
    Except Fault (Bool × Sudoku) :=
  match getSmallestCandidate s (Cell.mk 0 0) [] with
  | .error e => .error e
  | .ok (cell, candidates) =>
    if candidates.length = 0 then .ok (true, s)
    else tryCandidates recur cell candidates s

/-- The member function `Sudoku::solve` with at most `fuel` nested activations. -/
def solveFuel : Nat → Sudoku → Except Fault (Bool × Sudoku)
  | 0, _ => .error .outOfFuel
  | fuel + 1, s => solveBody (solveFuel fuel) s

/-- The member function `Sudoku::solve`: the grid has 81 cells, so 82 nested activations
are allowed. -/
def solve (s : Sudoku) : Except Fault (Bool × Sudoku) :=
  solveFuel 82 s

/-- The digit set `std::set<int> { 1, 2, 3, 4, 5, 6, 7, 8, 9 }`. -/
def fullSet : List Int := [1, 2, 3, 4, 5, 6, 7, 8, 9]

/-- The member initialisers of the constructor: a 9x9 grid of zeros and three registries
of nine full digit sets. -/
def initial : Sudoku :=
  { grid := List.replicate size (List.replicate size 0)
    rowCandidates := List.replicate size fullSet
    colCandidates := List.replicate size fullSet
    boxCandidates := List.replicate size fullSet }

/-- The body of the two nested clue loops of the constructor, run over the cells still to
visit. -/
def placeClues (input : List (List Int)) : List Cell → Sudoku → Except CtorError Sudoku
  | [], s => .ok s
  | c :: cs, s =>
    let num := cellAt input c.row c.col
    if num = blank then placeClues input cs s
    else if num < 1 ∨ num > 9 then .error .ValueError
    else
      match set s c num with
      | .error _ => .error .aborted
      | .ok (true, s1) => placeClues input cs s1
      | .ok (false, _) => .error .ConflictError

/-- The constructor `Sudoku::Sudoku(std::vector<std::vector<int>> grid)`. -/
def construct (input : List (List Int)) : Except CtorError Sudoku :=
  if input.length ≠ size then .error .ShapeError
  else if input.any (fun row => decide (row.length ≠ size)) then .error .ShapeError
  else placeClues input allCells initial

/-- The operator `Sudoku::operator==`. -/
def eq (a b : Sudoku) : Bool :=
  decide (a.grid = b.grid)

/-- The operator `Sudoku::operator!=`. -/
def ne (a b : Sudoku) : Bool :=
  !(eq a b)

/-- The clue grid `puzzle1` of `main`. -/
def puzzle1 : List (List Int) :=
  [[0, 6, 0, 0, 0, 0, 4, 0, 0],
   [3, 4, 1, 2, 0, 0, 0, 0, 8],
   [5, 0, 9, 0, 6, 8, 0, 0, 0],
   [0, 0, 0, 8, 0, 0, 0, 2, 9],
   [2, 1, 7, 0, 5, 0, 8, 4, 6],
   [9, 5, 0, 0, 0, 2, 0, 0, 0],
   [0, 0, 0, 1, 9, 0, 2, 0, 4],
   [6, 0, 0, 0, 0, 4, 3, 9, 1],
   [0, 0, 4, 0, 0, 0, 0, 8, 0]]

/-- The grid `puzzle1Solution` of `main`. -/
def puzzle1Solution : List (List Int) :=
  [[8, 6, 2, 9, 3, 1, 4, 7, 5],
   [3, 4, 1, 2, 7, 5, 9, 6, 8],
   [5, 7, 9, 4, 6, 8, 1, 3, 2],
   [4, 3, 6, 8, 1, 7, 5, 2, 9],
   [2, 1, 7, 3, 5, 9, 8, 4, 6],
   [9, 5, 8, 6, 4, 2, 7, 1, 3],
   [7, 8, 3, 1, 9, 6, 2, 5, 4],
   [6, 2, 5, 7, 8, 4, 3, 9, 1],
   [1, 9, 4, 5, 2, 3, 6, 8, 7]]

end Sudoku

namespace Sudoku

/-- The engine the constructor returns on `input` (the member initialisers alone when it
throws). -/
def engineOf (input : List (List Int)) : Sudoku :=
  match construct input with
  | .ok s => s
  | .error _ => initial

/-- A 9x9 input whose first row starts 1, 1, 10: the clue at (0,1) repeats the clue at (0,0)
and the entry at (0,2) is out of range. -/
def clashThenTen : List (List Int) :=
  [[1, 1, 10, 0, 0, 0, 0, 0, 0],
   [0, 0, 0, 0, 0, 0, 0, 0, 0],
   [0, 0, 0, 0, 0, 0, 0, 0, 0],
   [0, 0, 0, 0, 0, 0, 0, 0, 0],
   [0, 0, 0, 0, 0, 0, 0, 0, 0],
   [0, 0, 0, 0, 0, 0, 0, 0, 0],
   [0, 0, 0, 0, 0, 0, 0, 0, 0],
   [0, 0, 0, 0, 0, 0, 0, 0, 0],
   [0, 0, 0, 0, 0, 0, 0, 0, 0]]

/-- A 9x9 input with the clues 1 and 2 followed by the out-of-range entry 10. -/
def twoCluesThenTen : List (List Int) :=
  [[1, 2, 10, 0, 0, 0, 0, 0, 0],
   [0, 0, 0, 0, 0, 0, 0, 0, 0],
   [0, 0, 0, 0, 0, 0, 0, 0, 0],
   [0, 0, 0, 0, 0, 0, 0, 0, 0],
   [0, 0, 0, 0, 0, 0, 0, 0, 0],
   [0, 0, 0, 0, 0, 0, 0, 0, 0],
   [0, 0, 0, 0, 0, 0, 0, 0, 0],
   [0, 0, 0, 0, 0, 0, 0, 0, 0],
   [0, 0, 0, 0, 0, 0, 0, 0, 0]]

/-- The engine state with grid `g` and every candidate set empty (the registries of a
grid without blank cells). -/
def filled (g : List (List Int)) : Sudoku :=
  { grid := g
    rowCandidates := List.replicate size []
    colCandidates := List.replicate size []
    boxCandidates := List.replicate size [] }

/-- The all-blank input: 81 zeros. -/
def allBlank : List (List Int) :=
  List.replicate 9 (List.replicate 9 0)

/-- The grid `solve` leaves on the all-blank input. -/
def allBlankSolved : List (List Int) :=
  [[1, 2, 3, 4, 5, 6, 7, 8, 9],
   [4, 5, 6, 7, 8, 9, 1, 2, 3],
   [7, 8, 9, 1, 2, 3, 4, 5, 6],
   [2, 3, 1, 6, 7, 4, 8, 9, 5],
   [8, 7, 5, 9, 1, 2, 3, 6, 4],
   [6, 9, 4, 5, 3, 8, 2, 1, 7],
   [3, 1, 7, 2, 6, 5, 9, 4, 8],
   [5, 4, 2, 8, 9, 7, 6, 3, 1],
   [9, 6, 8, 3, 4, 1, 5, 7, 2]]

/-- A conflict-free 9x9 input without solution: row 0 holds 1..8 and a blank at (0,8), and
the 9 that cell needs stands below it at (1,8). -/
def deadEnd : List (List Int) :=
  [[1, 2, 3, 4, 5, 6, 7, 8, 0],
   [0, 0, 0, 0, 0, 0, 0, 0, 9],
   [0, 0, 0, 0, 0, 0, 0, 0, 0],
   [0, 0, 0, 0, 0, 0, 0, 0, 0],
   [0, 0, 0, 0, 0, 0, 0, 0, 0],
   [0, 0, 0, 0, 0, 0, 0, 0, 0],
   [0, 0, 0, 0, 0, 0, 0, 0, 0],
   [0, 0, 0, 0, 0, 0, 0, 0, 0],
   [0, 0, 0, 0, 0, 0, 0, 0, 0]]

/-- The grid `puzzle1Solution` with eight cells blanked: (1,1), (1,2), (1,6), (2,1), (2,2),
(2,6), (4,1), (4,2). -/
def eightBlanks : List (List Int) :=
  [[8, 6, 2, 9, 3, 1, 4, 7, 5],
   [3, 0, 0, 2, 7, 5, 0, 6, 8],
   [5, 0, 0, 4, 6, 8, 0, 3, 2],
   [4, 3, 6, 8, 1, 7, 5, 2, 9],
   [2, 0, 0, 3, 5, 9, 8, 4, 6],
   [9, 5, 8, 6, 4, 2, 7, 1, 3],
   [7, 8, 3, 1, 9, 6, 2, 5, 4],
   [6, 2, 5, 7, 8, 4, 3, 9, 1],
   [1, 9, 4, 5, 2, 3, 6, 8, 7]]

/-- The grid `solve` leaves on `eightBlanks`: 1 at (1,1) and 9 at (1,2) placed, six cells
still blank. -/
def eightBlanksLeft : List (List Int) :=
  [[8, 6, 2, 9, 3, 1, 4, 7, 5],
   [3, 1, 9, 2, 7, 5, 0, 6, 8],
   [5, 0, 0, 4, 6, 8, 0, 3, 2],
   [4, 3, 6, 8, 1, 7, 5, 2, 9],
   [2, 0, 0, 3, 5, 9, 8, 4, 6],
   [9, 5, 8, 6, 4, 2, 7, 1, 3],
   [7, 8, 3, 1, 9, 6, 2, 5, 4],
   [6, 2, 5, 7, 8, 4, 3, 9, 1],
   [1, 9, 4, 5, 2, 3, 6, 8, 7]]

/-- The state in which the activation of `solve` nested `k` levels below the outermost one
starts, when each activation above it places the first candidate of its cell and recurs. -/
def descend : Nat → Sudoku → Option Sudoku
  | 0, s => some s
  | k + 1, s =>
    match getSmallestCandidate s (Cell.mk 0 0) [] with
    | .ok (cell, val :: _) =>
      match set s cell val with
      | .ok (true, s1) => descend k s1
      | _ => none
    | _ => none

/-- The grid during `solve` on `allBlank` after 6 placements. -/
def allBlankAfter6 : List (List Int) :=
  [[1, 2, 3, 4, 5, 6, 0, 0, 0],
   [0, 0, 0, 0, 0, 0, 0, 0, 0],
   [0, 0, 0, 0, 0, 0, 0, 0, 0],
   [0, 0, 0, 0, 0, 0, 0, 0, 0],
   [0, 0, 0, 0, 0, 0, 0, 0, 0],
   [0, 0, 0, 0, 0, 0, 0, 0, 0],
   [0, 0, 0, 0, 0, 0, 0, 0, 0],
   [0, 0, 0, 0, 0, 0, 0, 0, 0],
   [0, 0, 0, 0, 0, 0, 0, 0, 0]]

/-- The grid during `solve` on `allBlank` after 12 placements. -/
def allBlankAfter12 : List (List Int) :=
  [[1, 2, 3, 4, 5, 6, 7, 8, 9],
   [4, 5, 6, 0, 0, 0, 0, 0, 0],
   [0, 0, 0, 0, 0, 0, 0, 0, 0],
   [0, 0, 0, 0, 0, 0, 0, 0, 0],
   [0, 0, 0, 0, 0, 0, 0, 0, 0],
   [0, 0, 0, 0, 0, 0, 0, 0, 0],
   [0, 0, 0, 0, 0, 0, 0, 0, 0],
   [0, 0, 0, 0, 0, 0, 0, 0, 0],
   [0, 0, 0, 0, 0, 0, 0, 0, 0]]

/-- The grid during `solve` on `allBlank` after 18 placements. -/
def allBlankAfter18 : List (List Int) :=
  [[1, 2, 3, 4, 5, 6, 7, 8, 9],
   [4, 5, 6, 7, 8, 9, 1, 2, 3],
   [0, 0, 0, 0, 0, 0, 0, 0, 0],
   [0, 0, 0, 0, 0, 0, 0, 0, 0],
   [0, 0, 0, 0, 0, 0, 0, 0, 0],
   [0, 0, 0, 0, 0, 0, 0, 0, 0],
   [0, 0, 0, 0, 0, 0, 0, 0, 0],
   [0, 0, 0, 0, 0, 0, 0, 0, 0],
   [0, 0, 0, 0, 0, 0, 0, 0, 0]]

/-- The grid during `solve` on `allBlank` after 25 placements. -/
def allBlankAfter25 : List (List Int) :=
  [[1, 2, 3, 4, 5, 6, 7, 8, 9],
   [4, 5, 6, 7, 8, 9, 1, 2, 3],
   [7, 8, 9, 1, 2, 3, 4, 0, 0],
   [0, 0, 0, 0, 0, 0, 0, 0, 0],
   [0, 0, 0, 0, 0, 0, 0, 0, 0],
   [0, 0, 0, 0, 0, 0, 0, 0, 0],
   [0, 0, 0, 0, 0, 0, 0, 0, 0],
   [0, 0, 0, 0, 0, 0, 0, 0, 0],
   [0, 0, 0, 0, 0, 0, 0, 0, 0]]

/-- The grid during `solve` on `allBlank` after 33 placements. -/
def allBlankAfter33 : List (List Int) :=
  [[1, 2, 3, 4, 5, 6, 7, 8, 9],
   [4, 5, 6, 7, 8, 9, 1, 2, 3],
   [7, 8, 9, 1, 2, 3, 4, 5, 6],
   [2, 3, 1, 6, 0, 4, 0, 0, 5],
   [0, 0, 0, 0, 0, 0, 0, 0, 0],
   [0, 0, 0, 0, 0, 0, 0, 0, 0],
   [0, 0, 0, 0, 0, 0, 0, 0, 0],
   [0, 0, 0, 0, 0, 0, 0, 0, 0],
   [0, 0, 0, 0, 0, 0, 0, 0, 0]]

/-- The grid during `solve` on `allBlank` after 42 placements. -/
def allBlankAfter42 : List (List Int) :=
  [[1, 2, 3, 4, 5, 6, 7, 8, 9],
   [4, 5, 6, 7, 8, 9, 1, 2, 3],
   [7, 8, 9, 1, 2, 3, 4, 5, 6],
   [2, 3, 1, 6, 7, 4, 8, 9, 5],
   [0, 0, 0, 0, 1, 0, 3, 6, 4],
   [0, 0, 0, 0, 3, 0, 2, 0, 0],
   [0, 0, 0, 0, 0, 0, 0, 0, 0],
   [0, 0, 0, 0, 0, 0, 0, 0, 0],
   [0, 0, 0, 0, 0, 0, 0, 0, 0]]

/-- The grid during `solve` on `allBlank` after 52 placements. -/
def allBlankAfter52 : List (List Int) :=
  [[1, 2, 3, 4, 5, 6, 7, 8, 9],
   [4, 5, 6, 7, 8, 9, 1, 2, 3],
   [7, 8, 9, 1, 2, 3, 4, 5, 6],
   [2, 3, 1, 6, 7, 4, 8, 9, 5],
   [8, 7, 5, 9, 1, 2, 3, 6, 4],
   [6, 9, 4, 5, 3, 8, 2, 0, 0],
   [0, 0, 0, 0, 0, 0, 0, 0, 0],
   [0, 0, 0, 0, 0, 0, 0, 0, 0],
   [0, 0, 0, 0, 0, 0, 0, 0, 0]]

/-- The grid during `solve` on `allBlank` after 64 placements. -/
def allBlankAfter64 : List (List Int) :=
  [[1, 2, 3, 4, 5, 6, 7, 8, 9],
   [4, 5, 6, 7, 8, 9, 1, 2, 3],
   [7, 8, 9, 1, 2, 3, 4, 5, 6],
   [2, 3, 1, 6, 7, 4, 8, 9, 5],
   [8, 7, 5, 9, 1, 2, 3, 6, 4],
   [6, 9, 4, 5, 3, 8, 2, 1, 7],
   [3, 1, 7, 2, 6, 5, 9, 4, 8],
   [5, 0, 0, 0, 0, 0, 0, 0, 0],
   [0, 0, 0, 0, 0, 0, 0, 0, 0]]

/-- The grid during `solve` on `puzzle1` after 12 placements. -/
def puzzle1After12 : List (List Int) :=
  [[0, 6, 2, 0, 3, 0, 4, 0, 0],
   [3, 4, 1, 2, 7, 0, 0, 0, 8],
   [5, 7, 9, 4, 6, 8, 0, 0, 0],
   [4, 3, 6, 8, 1, 7, 5, 2, 9],
   [2, 1, 7, 0, 5, 0, 8, 4, 6],
   [9, 5, 8, 0, 0, 2, 0, 0, 0],
   [0, 0, 0, 1, 9, 0, 2, 0, 4],
   [6, 0, 0, 0, 0, 4, 3, 9, 1],
   [0, 0, 4, 0, 0, 0, 0, 8, 0]]

/-- The grid during `solve` on `puzzle1` after 24 placements. -/
def puzzle1After24 : List (List Int) :=
  [[8, 6, 2, 0, 3, 0, 4, 0, 0],
   [3, 4, 1, 2, 7, 0, 0, 0, 8],
   [5, 7, 9, 4, 6, 8, 1, 3, 2],
   [4, 3, 6, 8, 1, 7, 5, 2, 9],
   [2, 1, 7, 0, 5, 0, 8, 4, 6],
   [9, 5, 8, 6, 4, 2, 7, 1, 3],
   [7, 8, 0, 1, 9, 0, 2, 0, 4],
   [6, 2, 0, 0, 0, 4, 3, 9, 1],
   [0, 0, 4, 0, 0, 0, 0, 8, 0]]

/-! ## Vocabulary of the specification -/

/-- A vector of vectors has exactly 9 rows of exactly 9 entries. -/
def NineByNine (g : List (List Int)) : Prop :=
  g.length = 9 ∧ ∀ row ∈ g, row.length = 9

/-- The vectors of an engine have the sizes the constructor gives them: a 9x9 grid and
nine slots in each registry. -/
def Shaped (s : Sudoku) : Prop :=
  NineByNine s.grid ∧ s.rowCandidates.length = 9 ∧ s.colCandidates.length = 9 ∧
    s.boxCandidates.length = 9

/-- Two cells lie in the same row, the same column or the same 3x3 box. -/
def SharesUnit (a b : Cell) : Prop :=
  a.row = b.row ∨ a.col = b.col ∨ getBox a = getBox b

/-- The values of row `i`, left to right. -/
def rowValues (g : List (List Int)) (i : Nat) : List Int :=
  (List.range 9).map (fun j => cellAt g i j)

/-- The values of column `j`, top to bottom. -/
def colValues (g : List (List Int)) (j : Nat) : List Int :=
  (List.range 9).map (fun i => cellAt g i j)

/-- The values of box `b`, in row-major order. -/
def boxValues (g : List (List Int)) (b : Nat) : List Int :=
  (allCells.filter (fun c => getBox c = b)).map (fun c => cellAt g c.row c.col)

/-- No cell of the grid is blank. -/
def NoBlank (g : List (List Int)) : Prop :=
  ∀ i < 9, ∀ j < 9, cellAt g i j ≠ 0

/-- Every row, every column and every box holds each digit 1..9 exactly once. -/
def EachDigitOnce (g : List (List Int)) : Prop :=
  ∀ k < 9, ∀ d ∈ fullSet,
    (rowValues g k).count d = 1 ∧ (colValues g k).count d = 1 ∧ (boxValues g k).count d = 1

/-- A complete valid Sudoku grid. -/
def Solved (g : List (List Int)) : Prop :=
  NineByNine g ∧ NoBlank g ∧ EachDigitOnce g

/-- Grid `g` agrees with every clue (non-blank entry) of `input`. -/
def AgreesWithClues (input g : List (List Int)) : Prop :=
  ∀ i < 9, ∀ j < 9, cellAt input i j ≠ 0 → cellAt g i j = cellAt input i j

/-- The registries are in exact sync with the grid: a slot of a row, column or box holds
exactly the digits 1..9 that no cell of that row, column or box holds. -/
def Sync (s : Sudoku) : Prop :=
  (∀ k < 9, ∀ d : Int, d ∈ slot s.rowCandidates k ↔
    1 ≤ d ∧ d ≤ 9 ∧ ∀ j < 9, cellAt s.grid k j ≠ d) ∧
  (∀ k < 9, ∀ d : Int, d ∈ slot s.colCandidates k ↔
    1 ≤ d ∧ d ≤ 9 ∧ ∀ i < 9, cellAt s.grid i k ≠ d) ∧
  (∀ k < 9, ∀ d : Int, d ∈ slot s.boxCandidates k ↔
    1 ≤ d ∧ d ≤ 9 ∧ ∀ i < 9, ∀ j < 9, getBox (Cell.mk i j) = k → cellAt s.grid i j ≠ d)

/-- No cell of grid `g` in the row, column or box of cell `c` holds `d`. -/
def NoClash (g : List (List Int)) (c : Cell) (d : Int) : Prop :=
  ∀ i < 9, ∀ j < 9, SharesUnit (Cell.mk i j) c → cellAt g i j ≠ d

/-- Cells `a` and `b` of `input` hold the same non-blank digit and share a row, a column or
a box. -/
def Clash (input : List (List Int)) (a b : Cell) : Prop :=
  cellAt input a.row a.col ≠ 0 ∧ cellAt input a.row a.col = cellAt input b.row b.col ∧
    SharesUnit a b

/-- Two distinct cells among `cs` clash in `input`. -/
def ConflictIn (input : List (List Int)) (cs : List Cell) : Prop :=
  ∃ a ∈ cs, ∃ b ∈ cs, a ≠ b ∧ Clash input a b

/-- Two distinct cells of the 9x9 `input` hold the same non-blank digit and share a row, a
column or a 3x3 box. -/
def Conflict (input : List (List Int)) : Prop :=
  ConflictIn input allCells

/-- The clues of `input` at the cells `cs` can all be placed on state `s`: none clashes
with a digit of the grid of `s`, and no two of them clash. -/
def Placeable (input : List (List Int)) (s : Sudoku) (cs : List Cell) : Prop :=
  (∀ c ∈ cs, cellAt input c.row c.col ≠ 0 → NoClash s.grid c (cellAt input c.row c.col)) ∧
    cs.Pairwise (fun a b => ¬ Clash input a b)

/-- Every entry of `input` at the cells `cs` lies in [0,9]. -/
def InRange (input : List (List Int)) (cs : List Cell) : Prop :=
  ∀ c ∈ cs, 0 ≤ cellAt input c.row c.col ∧ cellAt input c.row c.col ≤ 9

/-- The number of blank cells of the grid. -/
def blanks (s : Sudoku) : Nat :=
  allCells.countP (fun c => decide (cellAt s.grid c.row c.col = blank))

/-- The representation invariant of a `std::set<int>`: the elements in strictly ascending
order. -/
def IsSet (l : List Int) : Prop :=
  l.Pairwise (fun a b => a < b)

/-- Every registry slot is a `std::set<int>`. -/
def SetsSorted (s : Sudoku) : Prop :=
  ∀ k < 9, IsSet (slot s.rowCandidates k) ∧ IsSet (slot s.colCandidates k) ∧
    IsSet (slot s.boxCandidates k)

/-- Every registry slot holds digits 1..9 only. -/
def OnlyDigits (s : Sudoku) : Prop :=
  ∀ k < 9, (∀ d ∈ slot s.rowCandidates k, 1 ≤ d ∧ d ≤ 9) ∧
    (∀ d ∈ slot s.colCandidates k, 1 ≤ d ∧ d ≤ 9) ∧
    (∀ d ∈ slot s.boxCandidates k, 1 ≤ d ∧ d ≤ 9)

/-- An engine state as the class can hold it with candidate sets of digits: the vectors
have the constructor's sizes and every registry slot is a `std::set` of digits 1..9. -/
def WellFormed (s : Sudoku) : Prop :=
  Shaped s ∧ SetsSorted s ∧ OnlyDigits s

/-- For every row, column and box and every digit 1..9: the digit is in the candidate slot
exactly when no cell of that row, column or box holds it. -/
def DigitSync (s : Sudoku) : Prop :=
  ∀ k < 9, ∀ d ∈ fullSet,
    (d ∈ slot s.rowCandidates k ↔ ∀ j < 9, cellAt s.grid k j ≠ d) ∧
    (d ∈ slot s.colCandidates k ↔ ∀ i < 9, cellAt s.grid i k ≠ d) ∧
    (d ∈ slot s.boxCandidates k ↔
      ∀ i < 9, ∀ j < 9, getBox (Cell.mk i j) = k → cellAt s.grid i j ≠ d)

/-- The data-model invariants: every cell value lies in 0..9, the registries are in sync
with the grid for the digits 1..9, and no two cells of one row, column or box hold the
same non-blank digit. -/
def DataModel (s : Sudoku) : Prop :=
  InRange s.grid allCells ∧ DigitSync s ∧ ¬ Conflict s.grid

/-- Cell `a` comes before cell `b` in row-major order. -/
def RowMajorLt (a b : Cell) : Prop :=
  a.row < b.row ∨ (a.row = b.row ∧ a.col < b.col)

/-- A 9x9 input with the single clue 5 at (0,0). -/
def oneClue : List (List Int) :=
  [[5, 0, 0, 0, 0, 0, 0, 0, 0],
   [0, 0, 0, 0, 0, 0, 0, 0, 0],
   [0, 0, 0, 0, 0, 0, 0, 0, 0],
   [0, 0, 0, 0, 0, 0, 0, 0, 0],
   [0, 0, 0, 0, 0, 0, 0, 0, 0],
   [0, 0, 0, 0, 0, 0, 0, 0, 0],
   [0, 0, 0, 0, 0, 0, 0, 0, 0],
   [0, 0, 0, 0, 0, 0, 0, 0, 0],
   [0, 0, 0, 0, 0, 0, 0, 0, 0]]

/-- The state `set` leaves (the state itself when an assertion stops the call). -/
def afterSet (s : Sudoku) (cell : Cell) (num : Int) : Sudoku :=
  match set s cell num with
  | .ok (_, s1) => s1
  | .error _ => s

/-- The invariant of the engine: a well-formed state whose registries are in exact sync
with the grid, whose cell values lie in 0..9, and in which no two cells of one row, column
or box hold the same non-blank digit. -/
def Invariant (s : Sudoku) : Prop :=
  WellFormed s ∧ Sync s ∧ InRange s.grid allCells ∧ ¬ Conflict s.grid

instance (g : List (List Int)) : Decidable (NineByNine g) := by
  unfold NineByNine; infer_instance

instance (s : Sudoku) : Decidable (Shaped s) := by
  unfold Shaped; infer_instance

instance (a b : Cell) : Decidable (SharesUnit a b) := by
  unfold SharesUnit; infer_instance

instance (g : List (List Int)) : Decidable (NoBlank g) := by
  unfold NoBlank; infer_instance

instance (g : List (List Int)) : Decidable (EachDigitOnce g) := by
  unfold EachDigitOnce; infer_instance

instance (g : List (List Int)) : Decidable (Solved g) := by
  unfold Solved; infer_instance

instance (input g : List (List Int)) : Decidable (AgreesWithClues input g) := by
  unfold AgreesWithClues; infer_instance

instance (input : List (List Int)) (a b : Cell) : Decidable (Clash input a b) := by
  unfold Clash; infer_instance

instance (input : List (List Int)) (cs : List Cell) : Decidable (ConflictIn input cs) := by
  unfold ConflictIn; infer_instance

instance (input : List (List Int)) : Decidable (Conflict input) := by
  unfold Conflict; infer_instance

instance (input : List (List Int)) (cs : List Cell) : Decidable (InRange input cs) := by
  unfold InRange; infer_instance

instance (l : List Int) : Decidable (IsSet l) := by
  unfold IsSet; infer_instance

instance (s : Sudoku) : Decidable (SetsSorted s) := by
  unfold SetsSorted; infer_instance

instance (s : Sudoku) : Decidable (OnlyDigits s) := by
  unfold OnlyDigits; infer_instance

instance (s : Sudoku) : Decidable (WellFormed s) := by
  unfold WellFormed; infer_instance

instance (s : Sudoku) : Decidable (DigitSync s) := by
  unfold DigitSync; infer_instance

instance (s : Sudoku) : Decidable (DataModel s) := by
  unfold DataModel; infer_instance

instance (a b : Cell) : Decidable (RowMajorLt a b) := by
  unfold RowMajorLt; infer_instance

/-! ## Vectors -/

theorem getD_getD_eq_of_length {g : List (List Int)} (hg : NineByNine g) {i : Nat} (hi : i < 9) :
    (g.getD i []).length = 9 := by
  have hi2 : i < g.length := by rw [hg.1]; exact hi
  rw [List.getD_eq_getElem g [] hi2]
  exact hg.2 _ (List.getElem_mem hi2)

theorem grid_ext {g h : List (List Int)} (hg : NineByNine g) (hh : NineByNine h) :
    (∀ i < 9, ∀ j < 9, cellAt g i j = cellAt h i j) ↔ g = h := by
  constructor
  · intro hc
    apply List.ext_getElem (by rw [hg.1, hh.1])
    intro i h1 h2
    have hi : i < 9 := by rw [hg.1] at h1; exact h1
    have e1 := getD_getD_eq_of_length hg hi
    have e2 := getD_getD_eq_of_length hh hi
    rw [List.getD_eq_getElem g [] h1] at e1
    rw [List.getD_eq_getElem h [] h2] at e2
    apply List.ext_getElem (by rw [e1, e2])
    intro j j1 j2
    have hj : j < 9 := by rw [e1] at j1; exact j1
    have := hc i hi j hj
    simp only [cellAt] at this
    rw [List.getD_eq_getElem g [] h1, List.getD_eq_getElem h [] h2,
      List.getD_eq_getElem _ 0 j1, List.getD_eq_getElem _ 0 j2] at this
    exact this
  · rintro rfl _ _ _ _
    rfl

/-! ## Equality -/

/-- C10. `a == b` holds exactly when the two grids are identical (for engines of the
constructor's shape: exactly when they agree cell by cell), whatever the candidate
registries hold; `a == a` holds, `==` is symmetric, and `!=` is the negation of `==`. -/
theorem eq_iff_grids_identical (a b : Sudoku) :
    (eq a b = true ↔ a.grid = b.grid) ∧
    (NineByNine a.grid → NineByNine b.grid →
      (eq a b = true ↔ ∀ i < 9, ∀ j < 9, cellAt a.grid i j = cellAt b.grid i j)) ∧
    (∀ r c x r2 c2 x2 : List (List Int),
      eq { a with rowCandidates := r, colCandidates := c, boxCandidates := x }
         { b with rowCandidates := r2, colCandidates := c2, boxCandidates := x2 } = eq a b) ∧
    eq a a = true ∧ eq a b = eq b a ∧ ne a b = !(eq a b) := by
  refine ⟨by simp [eq], ?_, fun _ _ _ _ _ _ => rfl, by simp [eq], ?_, rfl⟩
  · intro ha hb
    rw [show (eq a b = true ↔ a.grid = b.grid) by simp [eq]]
    exact (grid_ext ha hb).symm
  · simp only [eq]
    by_cases h : a.grid = b.grid
    · simp [h]
    · have h2 : ¬ b.grid = a.grid := fun e => h e.symm
      simp [h, h2]

/-- Witness for C10: the demo engine state against the solution grid with untouched
registries; both grids are 9x9 and they differ in a cell, so `==` is false. -/
theorem eq_iff_grids_identical_witness :
    NineByNine puzzle1 ∧ NineByNine puzzle1Solution ∧
    (eq { initial with grid := puzzle1 } { initial with grid := puzzle1Solution } = true ↔
      ∀ i < 9, ∀ j < 9, cellAt puzzle1 i j = cellAt puzzle1Solution i j) :=
  ⟨by decide, by decide,
    (eq_iff_grids_identical { initial with grid := puzzle1 }
      { initial with grid := puzzle1Solution }).2.1 (by decide) (by decide)⟩


/-! ## Placement -/

theorem cellAt_setCell {g : List (List Int)} (hg : NineByNine g) {i j : Nat} (hi : i < 9)
    (hj : j < 9) (x : Int) (k l : Nat) :
    cellAt (setCell g i j x) k l = if k = i ∧ l = j then x else cellAt g k l := by
  have hi2 : i < g.length := by rw [hg.1]; exact hi
  have hlen := getD_getD_eq_of_length hg hi
  simp only [cellAt, setCell, List.getD_eq_getElem?_getD, List.getElem?_set]
  by_cases hk : i = k
  · subst hk
    by_cases hl : j = l
    · subst hl
      have : j < (g[i]).length := by
        rw [← List.getD_eq_getElem g [] hi2, hlen]; exact hj
      simp [hi2, this]
    · have hl2 : ¬ l = j := fun e => hl e.symm
      simp [hi2, hl, hl2]
  · have hk2 : ¬ k = i := fun e => hk e.symm
    simp [hk, hk2]

theorem nineByNine_setCell {g : List (List Int)} (hg : NineByNine g) (i j : Nat) (x : Int) :
    NineByNine (setCell g i j x) := by
  refine ⟨by simp [setCell, hg.1], ?_⟩
  intro row hrow
  simp only [setCell] at hrow
  rcases List.mem_or_eq_of_mem_set hrow with h | h
  · exact hg.2 row h
  · by_cases hi : i < g.length
    · subst h
      rw [List.length_set, List.getD_eq_getElem g [] hi]
      exact hg.2 _ (List.getElem_mem hi)
    · rw [List.set_eq_of_length_le (by omega)] at hrow
      exact hg.2 row hrow

theorem slot_set {regs : List (List Int)} {k : Nat} (hk : k < regs.length) (v : List Int)
    (k2 : Nat) : slot (regs.set k v) k2 = if k2 = k then v else slot regs k2 := by
  simp only [slot, List.getD_eq_getElem?_getD, List.getElem?_set]
  by_cases h : k = k2
  · subst h; simp [hk]
  · have h2 : ¬ k2 = k := fun e => h e.symm
    simp [h, h2]

theorem mem_setErase {l : List Int} {num d : Int} : d ∈ setErase l num ↔ d ∈ l ∧ d ≠ num := by
  simp [setErase, List.mem_filter]

theorem mem_setIntersection {a b : List Int} {d : Int} :
    d ∈ setIntersection a b ↔ d ∈ a ∧ d ∈ b := by
  simp [setIntersection, List.mem_filter]

theorem inBounds_iff {c : Cell} : inBounds c = true ↔ c.row < 9 ∧ c.col < 9 := by
  simp [inBounds, size]

theorem getBox_lt {c : Cell} (h : inBounds c = true) : getBox c < 9 := by
  have := inBounds_iff.1 h
  simp only [getBox, boxsize]
  omega

theorem set_true_spec {s s1 : Sudoku} {c : Cell} {d : Int} (h : set s c d = .ok (true, s1)) :
    inBounds c = true ∧ 1 ≤ d ∧ d ≤ 9 ∧
    d ∈ slot s.rowCandidates c.row ∧ d ∈ slot s.colCandidates c.col ∧
    d ∈ slot s.boxCandidates (getBox c) ∧
    s1.grid = setCell s.grid c.row c.col d ∧
    s1.rowCandidates = s.rowCandidates.set c.row (setErase (slot s.rowCandidates c.row) d) ∧
    s1.colCandidates = s.colCandidates.set c.col (setErase (slot s.colCandidates c.col) d) ∧
    s1.boxCandidates =
      s.boxCandidates.set (getBox c) (setErase (slot s.boxCandidates (getBox c)) d) := by
  unfold set at h
  split at h
  · cases h
  · split at h
    · cases h
    · simp only at h
      split at h
      · rename_i hb hr hm
        simp only [Except.ok.injEq, Prod.mk.injEq, true_and] at h
        subst h
        simp at hb hr hm
        exact ⟨hb, hr.1, hr.2, hm.1.1, hm.1.2, hm.2, rfl, rfl, rfl, rfl⟩
      · simp at h

theorem set_of_mem (s : Sudoku) {c : Cell} {d : Int} (hb : inBounds c = true) (h1 : 1 ≤ d)
    (h9 : d ≤ 9) (hr : d ∈ slot s.rowCandidates c.row) (hc : d ∈ slot s.colCandidates c.col)
    (hx : d ∈ slot s.boxCandidates (getBox c)) : ∃ s1, set s c d = .ok (true, s1) := by
  simp [set, hb, h1, h9, hr, hc, hx]

theorem set_of_not_mem (s : Sudoku) {c : Cell} {d : Int} (hb : inBounds c = true) (h1 : 1 ≤ d)
    (h9 : d ≤ 9)
    (hn : ¬ (d ∈ slot s.rowCandidates c.row ∧ d ∈ slot s.colCandidates c.col ∧
      d ∈ slot s.boxCandidates (getBox c))) : set s c d = .ok (false, s) := by
  simp only [set, hb, h1, h9]
  simp only [Bool.not_true, Bool.false_eq_true, ↓reduceIte, decide_True, Bool.and_self]
  rw [if_neg]
  simpa [and_assoc] using hn

theorem shaped_of_set {s s1 : Sudoku} {c : Cell} {d : Int} (hs : Shaped s)
    (h : set s c d = .ok (true, s1)) : Shaped s1 := by
  obtain ⟨-, -, -, -, -, -, e1, e2, e3, e4⟩ := set_true_spec h
  refine ⟨?_, ?_, ?_, ?_⟩
  · rw [e1]; exact nineByNine_setCell hs.1 _ _ _
  · rw [e2, List.length_set]; exact hs.2.1
  · rw [e3, List.length_set]; exact hs.2.2.1
  · rw [e4, List.length_set]; exact hs.2.2.2

theorem cellAt_of_set {s s1 : Sudoku} {c : Cell} {d : Int} (hs : Shaped s)
    (h : set s c d = .ok (true, s1)) (k l : Nat) :
    cellAt s1.grid k l = if k = c.row ∧ l = c.col then d else cellAt s.grid k l := by
  obtain ⟨hb, -, -, -, -, -, e1, -⟩ := set_true_spec h
  have := inBounds_iff.1 hb
  rw [e1]
  exact cellAt_setCell hs.1 this.1 this.2 d k l

theorem sync_of_set {s s1 : Sudoku} {c : Cell} {d : Int} (hs : Shaped s) (hy : Sync s)
    (hblank : cellAt s.grid c.row c.col = 0) (h : set s c d = .ok (true, s1)) : Sync s1 := by
  have hcell := cellAt_of_set hs h
  obtain ⟨hb, h1, h9, -, -, -, -, e2, e3, e4⟩ := set_true_spec h
  have hrc := inBounds_iff.1 hb
  have hbox := getBox_lt hb
  refine ⟨?_, ?_, ?_⟩
  · intro k hk x
    rw [e2, slot_set (by rw [hs.2.1]; exact hrc.1)]
    by_cases e : k = c.row
    · subst e
      simp only [if_true, mem_setErase, hy.1 _ hk x, hcell]
      constructor
      · rintro ⟨⟨a, b, h3⟩, hne⟩
        refine ⟨a, b, fun j hj => ?_⟩
        by_cases ej : j = c.col
        · simp [ej]; exact fun e => hne e.symm
        · simp [ej]; exact h3 j hj
      · rintro ⟨a, b, h3⟩
        refine ⟨⟨a, b, fun j hj => ?_⟩, ?_⟩
        · by_cases ej : j = c.col
          · subst ej; rw [hblank]; omega
          · have := h3 j hj; simpa [ej] using this
        · have := h3 c.col hrc.2; simp at this; exact fun e => this e.symm
    · simp only [e, if_false, hy.1 _ hk x, hcell, false_and]
  · intro k hk x
    rw [e3, slot_set (by rw [hs.2.2.1]; exact hrc.2)]
    by_cases e : k = c.col
    · subst e
      simp only [if_true, mem_setErase, hy.2.1 _ hk x, hcell]
      constructor
      · rintro ⟨⟨a, b, h3⟩, hne⟩
        refine ⟨a, b, fun i hi => ?_⟩
        by_cases ei : i = c.row
        · simp [ei]; exact fun e => hne e.symm
        · simp [ei]; exact h3 i hi
      · rintro ⟨a, b, h3⟩
        refine ⟨⟨a, b, fun i hi => ?_⟩, ?_⟩
        · by_cases ei : i = c.row
          · subst ei; rw [hblank]; omega
          · have := h3 i hi; simpa [ei] using this
        · have := h3 c.row hrc.1; simp at this; exact fun e => this e.symm
    · simp only [e, if_false, hy.2.1 _ hk x, hcell, and_false]
  · intro k hk x
    rw [e4, slot_set (by rw [hs.2.2.2]; exact hbox)]
    by_cases e : k = getBox c
    · subst e
      simp only [if_true, mem_setErase, hy.2.2 _ hk x, hcell]
      constructor
      · rintro ⟨⟨a, b, h3⟩, hne⟩
        refine ⟨a, b, fun i hi j hj hij => ?_⟩
        by_cases eij : i = c.row ∧ j = c.col
        · simp [eij]; exact fun e => hne e.symm
        · simp [eij]; exact h3 i hi j hj hij
      · rintro ⟨a, b, h3⟩
        refine ⟨⟨a, b, fun i hi j hj hij => ?_⟩, ?_⟩
        · by_cases eij : i = c.row ∧ j = c.col
          · rw [eij.1, eij.2, hblank]; omega
          · have := h3 i hi j hj hij; simpa [eij] using this
        · have := h3 c.row hrc.1 c.col hrc.2 rfl; simp at this; exact fun e => this e.symm
    · simp only [e, if_false, hy.2.2 _ hk x, hcell]
      constructor
      · rintro ⟨a, b, h3⟩
        refine ⟨a, b, fun i hi j hj hij => ?_⟩
        have hne : ¬ (i = c.row ∧ j = c.col) := by
          rintro ⟨rfl, rfl⟩; exact e hij.symm
        simp [hne]; exact h3 i hi j hj hij
      · rintro ⟨a, b, h3⟩
        refine ⟨a, b, fun i hi j hj hij => ?_⟩
        have hne : ¬ (i = c.row ∧ j = c.col) := by
          rintro ⟨rfl, rfl⟩; exact e hij.symm
        have := h3 i hi j hj hij; simpa [hne] using this

/-! ## Construction -/

theorem sharesUnit_symm {a b : Cell} (h : SharesUnit a b) : SharesUnit b a := by
  rcases h with h | h | h
  · exact Or.inl h.symm
  · exact Or.inr (Or.inl h.symm)
  · exact Or.inr (Or.inr h.symm)

theorem clash_symm {input : List (List Int)} {a b : Cell} (h : Clash input a b) :
    Clash input b a :=
  ⟨by rw [← h.2.1]; exact h.1, h.2.1.symm, sharesUnit_symm h.2.2⟩

/-- In a synced state the test of `set` succeeds exactly when no cell of the three units of
the cell holds the digit. -/
theorem mem_slots_iff_noClash {s : Sudoku} (hy : Sync s) {c : Cell} (hb : inBounds c = true)
    {d : Int} (h1 : 1 ≤ d) (h9 : d ≤ 9) :
    (d ∈ slot s.rowCandidates c.row ∧ d ∈ slot s.colCandidates c.col ∧
      d ∈ slot s.boxCandidates (getBox c)) ↔ NoClash s.grid c d := by
  have hrc := inBounds_iff.1 hb
  rw [hy.1 _ hrc.1, hy.2.1 _ hrc.2, hy.2.2 _ (getBox_lt hb)]
  constructor
  · rintro ⟨⟨-, -, hr⟩, ⟨-, -, hc⟩, ⟨-, -, hx⟩⟩ i hi j hj hsh
    rcases hsh with e | e | e
    · simp only at e; subst e; exact hr j hj
    · simp only at e; subst e; exact hc i hi
    · exact hx i hi j hj e
  · intro h
    refine ⟨⟨h1, h9, fun j hj => h _ hrc.1 j hj (Or.inl rfl)⟩,
      ⟨h1, h9, fun i hi => h i hi _ hrc.2 (Or.inr (Or.inl rfl))⟩,
      ⟨h1, h9, fun i hi j hj e => h i hi j hj (Or.inr (Or.inr e))⟩⟩

theorem noClash_of_set {s s1 : Sudoku} {c : Cell} {d : Int} (hs : Shaped s)
    (hblank : cellAt s.grid c.row c.col = 0) (h : set s c d = .ok (true, s1))
    (b : Cell) {x : Int} (hx : x ≠ 0) :
    NoClash s1.grid b x ↔ NoClash s.grid b x ∧ ¬ (SharesUnit c b ∧ d = x) := by
  have hcell := cellAt_of_set hs h
  have hrc := inBounds_iff.1 (set_true_spec h).1
  constructor
  · intro hn
    refine ⟨fun i hi j hj hsh => ?_, ?_⟩
    · by_cases e : i = c.row ∧ j = c.col
      · rw [e.1, e.2, hblank]; exact fun e => hx e.symm
      · have := hn i hi j hj hsh
        rw [hcell] at this
        simpa [e] using this
    · rintro ⟨hsh, rfl⟩
      have := hn c.row hrc.1 c.col hrc.2 hsh
      rw [hcell] at this
      simp at this
  · rintro ⟨hn, hne⟩ i hi j hj hsh
    rw [hcell]
    by_cases e : i = c.row ∧ j = c.col
    · simp only [e, and_self, if_true]
      intro e2
      apply hne
      refine ⟨?_, e2⟩
      rw [e.1, e.2] at hsh
      exact hsh
    · simp only [e, if_false]
      exact hn i hi j hj hsh

/-- The clue loop of the constructor on a synced state whose pending cells are blank and
whose pending entries lie in [0,9]: when the pending clues are placeable the loop runs
through them, writing exactly the clues, and otherwise it throws the conflict error. -/
theorem placeClues_spec (input : List (List Int)) :
    ∀ (cs : List Cell) (s : Sudoku), Shaped s → Sync s → cs.Nodup →
      (∀ c ∈ cs, inBounds c = true ∧ cellAt s.grid c.row c.col = 0) → InRange input cs →
      (Placeable input s cs →
        ∃ s1, Shaped s1 ∧ Sync s1 ∧
          (∀ i j, cellAt s1.grid i j =
            if Cell.mk i j ∈ cs ∧ cellAt input i j ≠ 0 then cellAt input i j
            else cellAt s.grid i j) ∧
          ∀ rest, placeClues input (cs ++ rest) s = placeClues input rest s1) ∧
      (¬ Placeable input s cs →
        ∀ rest, placeClues input (cs ++ rest) s = .error .ConflictError) := by
  intro cs
  induction cs with
  | nil =>
    intro s hs hy _ _ _
    refine ⟨fun _ => ⟨s, hs, hy, fun i j => by simp, fun rest => rfl⟩, fun hp => ?_⟩
    exact absurd (show Placeable input s [] from
      ⟨fun c hc => absurd hc (List.not_mem_nil c), List.Pairwise.nil⟩) hp
  | cons c cs ih =>
    intro s hs hy hnd hcells hrange
    rw [List.nodup_cons] at hnd
    have hb := (hcells c (List.mem_cons_self _ _)).1
    have hblank := (hcells c (List.mem_cons_self _ _)).2
    have hrange2 : InRange input cs := fun b hbm => hrange b (List.mem_cons_of_mem _ hbm)
    by_cases hz : cellAt input c.row c.col = 0
    · have step : ∀ rest, placeClues input ((c :: cs) ++ rest) s =
          placeClues input (cs ++ rest) s := by
        intro rest
        simp [placeClues, hz, blank]
      have hP : Placeable input s (c :: cs) ↔ Placeable input s cs := by
        simp only [Placeable, List.pairwise_cons, List.mem_cons, forall_eq_or_imp]
        constructor
        · rintro ⟨⟨-, h1⟩, -, h2⟩
          exact ⟨h1, h2⟩
        · rintro ⟨h1, h2⟩
          exact ⟨⟨fun h => absurd hz h, h1⟩, fun b _ hc => hc.1 hz, h2⟩
      obtain ⟨ihA, ihB⟩ := ih s hs hy hnd.2
        (fun b hbm => hcells b (List.mem_cons_of_mem _ hbm)) hrange2
      constructor
      · intro hp
        obtain ⟨s1, a, b, hg, hr⟩ := ihA (hP.1 hp)
        refine ⟨s1, a, b, fun i j => ?_, fun rest => by rw [step, hr]⟩
        rw [hg]
        by_cases e : Cell.mk i j = c
        · have e1 : cellAt input i j = 0 := by rw [← e] at hz; exact hz
          simp [e1]
        · simp [e]
      · intro hp rest
        rw [step]
        exact ihB (fun h => hp (hP.2 h)) rest
    · have h1 : 1 ≤ cellAt input c.row c.col := by
        have := (hrange c (List.mem_cons_self _ _)).1
        omega
      have h9 := (hrange c (List.mem_cons_self _ _)).2
      by_cases hn : NoClash s.grid c (cellAt input c.row c.col)
      · obtain ⟨s1, hset⟩ := set_of_mem s hb h1 h9
          ((mem_slots_iff_noClash hy hb h1 h9).2 hn).1
          ((mem_slots_iff_noClash hy hb h1 h9).2 hn).2.1
          ((mem_slots_iff_noClash hy hb h1 h9).2 hn).2.2
        have hcell := cellAt_of_set hs hset
        have step : ∀ rest, placeClues input ((c :: cs) ++ rest) s =
            placeClues input (cs ++ rest) s1 := by
          intro rest
          have h1n : ¬ cellAt input c.row c.col < 1 := by omega
          have h9n : ¬ cellAt input c.row c.col > 9 := by omega
          simp [placeClues, hz, blank, hset, h1n, h9n]
        have hP : Placeable input s (c :: cs) ↔ Placeable input s1 cs := by
          simp only [Placeable, List.pairwise_cons, List.mem_cons, forall_eq_or_imp]
          constructor
          · rintro ⟨⟨-, h2⟩, h3, h4⟩
            refine ⟨fun b hbm hbz => ?_, h4⟩
            rw [noClash_of_set hs hblank hset b hbz]
            exact ⟨h2 b hbm hbz, fun hc => h3 b hbm ⟨hz, hc.2, hc.1⟩⟩
          · rintro ⟨h2, h4⟩
            refine ⟨⟨fun _ => hn, fun b hbm hbz => ?_⟩, fun b hbm hc => ?_, h4⟩
            · exact ((noClash_of_set hs hblank hset b hbz).1 (h2 b hbm hbz)).1
            · have hbz : cellAt input b.row b.col ≠ 0 := by rw [← hc.2.1]; exact hc.1
              exact ((noClash_of_set hs hblank hset b hbz).1 (h2 b hbm hbz)).2
                ⟨hc.2.2, hc.2.1⟩
        obtain ⟨ihA, ihB⟩ := ih s1 (shaped_of_set hs hset) (sync_of_set hs hy hblank hset)
          hnd.2
          (fun b hbm => by
            refine ⟨(hcells b (List.mem_cons_of_mem _ hbm)).1, ?_⟩
            rw [hcell]
            have hne : ¬ (b.row = c.row ∧ b.col = c.col) := by
              rintro ⟨e1, e2⟩
              apply hnd.1
              have : b = c := by cases b; cases c; simp_all
              rw [← this]; exact hbm
            simp only [hne, if_false]
            exact (hcells b (List.mem_cons_of_mem _ hbm)).2)
          hrange2
        constructor
        · intro hp
          obtain ⟨s2, a, b, hg, hr⟩ := ihA (hP.1 hp)
          refine ⟨s2, a, b, fun i j => ?_, fun rest => by rw [step, hr]⟩
          rw [hg, hcell]
          by_cases e : Cell.mk i j = c
          · have hnm : Cell.mk i j ∉ cs := by rw [e]; exact hnd.1
            subst e
            simp [hnm, hz]
          · have hne : ¬ (i = c.row ∧ j = c.col) := by
              rintro ⟨e1, e2⟩; apply e; rw [e1, e2]
            simp [e, hne]
        · intro hp rest
          rw [step]
          exact ihB (fun h => hp (hP.2 h)) rest
      · have hset := set_of_not_mem s hb h1 h9
          (fun h => hn ((mem_slots_iff_noClash hy hb h1 h9).1 h))
        constructor
        · intro hp
          exact absurd (hp.1 c (List.mem_cons_self _ _) hz) hn
        · intro _ rest
          have h1n : ¬ cellAt input c.row c.col < 1 := by omega
          have h9n : ¬ cellAt input c.row c.col > 9 := by omega
          simp [placeClues, hz, blank, hset, h1n, h9n]

theorem mem_allCells {c : Cell} : c ∈ allCells ↔ inBounds c = true := by
  rw [inBounds_iff]
  simp only [allCells, size, List.mem_flatMap, List.mem_map, List.mem_range]
  constructor
  · rintro ⟨i, hi, j, hj, rfl⟩
    exact ⟨hi, hj⟩
  · rintro ⟨h1, h2⟩
    exact ⟨c.row, h1, c.col, h2, rfl⟩

theorem nodup_allCells : allCells.Nodup := by
  decide

theorem length_allCells : allCells.length = 81 := by
  decide

theorem getD_replicate_getD (n m i j : Nat) :
    ((List.replicate n (List.replicate m (0 : Int))).getD i []).getD j 0 = 0 := by
  simp only [List.getD_eq_getElem?_getD, List.getElem?_replicate]
  by_cases hi : i < n
  · by_cases hj : j < m
    · simp [hi, hj]
    · simp [hi, hj]
  · simp [hi]

theorem cellAt_initial (i j : Nat) : cellAt initial.grid i j = 0 :=
  getD_replicate_getD size size i j

theorem shaped_initial : Shaped initial := by
  decide

theorem mem_fullSet {d : Int} : d ∈ fullSet ↔ 1 ≤ d ∧ d ≤ 9 := by
  simp only [fullSet, List.mem_cons, List.mem_singleton, List.not_mem_nil, or_false]
  omega

theorem getD_replicate_of_lt {n k : Nat} (hk : k < n) (v : List Int) :
    (List.replicate n v).getD k [] = v := by
  simp only [List.getD_eq_getElem?_getD, List.getElem?_replicate]
  simp [hk]

theorem slot_replicate {k : Nat} (hk : k < 9) : slot (List.replicate size fullSet) k = fullSet :=
  getD_replicate_of_lt hk fullSet

theorem sync_initial : Sync initial := by
  have hz : ∀ (i j : Nat) (d : Int), 1 ≤ d → cellAt initial.grid i j ≠ d := by
    intro i j d hd
    rw [cellAt_initial]
    omega
  refine ⟨fun k hk d => ?_, fun k hk d => ?_, fun k hk d => ?_⟩
  · simp only [initial, slot_replicate hk, mem_fullSet]
    exact ⟨fun h => ⟨h.1, h.2, fun j _ => hz k j d h.1⟩, fun h => ⟨h.1, h.2.1⟩⟩
  · simp only [initial, slot_replicate hk, mem_fullSet]
    exact ⟨fun h => ⟨h.1, h.2, fun i _ => hz i k d h.1⟩, fun h => ⟨h.1, h.2.1⟩⟩
  · simp only [initial, slot_replicate hk, mem_fullSet]
    exact ⟨fun h => ⟨h.1, h.2, fun i _ j _ _ => hz i j d h.1⟩, fun h => ⟨h.1, h.2.1⟩⟩

theorem placeable_initial_iff (input : List (List Int)) {cs : List Cell} (hnd : cs.Nodup) :
    Placeable input initial cs ↔ ¬ ConflictIn input cs := by
  constructor
  · rintro ⟨-, hp⟩ ⟨a, ha, b, hb, hne, hc⟩
    have hsym : Symmetric (fun a b => ¬ Clash input a b) := fun x y h hc => h (clash_symm hc)
    exact hp.forall hsym ha hb hne hc
  · intro hn
    refine ⟨fun c _ hz i _ j _ _ => ?_, ?_⟩
    · rw [cellAt_initial]
      exact fun e => hz e.symm
    · exact hnd.pairwise_of_forall_ne (fun a ha b hb hne hc => hn ⟨a, ha, b, hb, hne, hc⟩)

theorem construct_of_nineByNine {input : List (List Int)} (h : NineByNine input) :
    construct input = placeClues input allCells initial := by
  have h2 : (input.any fun row => decide (row.length ≠ size)) = false := by
    rw [Bool.eq_false_iff]
    intro hany
    rw [List.any_eq_true] at hany
    obtain ⟨row, hrow, hne⟩ := hany
    simp [size, h.2 row hrow] at hne
  unfold construct
  rw [if_neg (by simp [size, h.1]), if_neg (by rw [h2]; exact Bool.false_ne_true)]

theorem construct_of_not_nineByNine {input : List (List Int)} (h : ¬ NineByNine input) :
    construct input = .error .ShapeError := by
  unfold construct
  by_cases h1 : input.length ≠ size
  · simp [h1]
  · have h1b : input.length = 9 := by simpa [size] using h1
    have h2 : (input.any fun row => decide (row.length ≠ size)) = true := by
      rw [List.any_eq_true]
      by_contra hcon
      apply h
      refine ⟨h1b, fun row hrow => ?_⟩
      by_contra hlen
      exact hcon ⟨row, hrow, by simpa [size] using hlen⟩
    rw [if_neg h1, if_pos h2]

theorem placeClues_ne_shapeError (input : List (List Int)) :
    ∀ (cs : List Cell) (s : Sudoku), placeClues input cs s ≠ .error .ShapeError := by
  intro cs
  induction cs with
  | nil => intro s h; cases h
  | cons c cs ih =>
    intro s
    unfold placeClues
    simp only
    split
    · exact ih s
    · split
      · intro h; cases h
      · split
        · intro h; cases h
        · exact ih _
        · intro h; cases h

theorem placeClues_grid (input : List (List Int)) :
    ∀ (cs : List Cell) (s s2 : Sudoku), Shaped s → cs.Nodup →
      placeClues input cs s = .ok s2 →
      Shaped s2 ∧ ∀ i j, cellAt s2.grid i j =
        if Cell.mk i j ∈ cs ∧ cellAt input i j ≠ 0 then cellAt input i j
        else cellAt s.grid i j := by
  intro cs
  induction cs with
  | nil =>
    intro s s2 hs _ h
    simp only [placeClues, Except.ok.injEq] at h
    subst h
    exact ⟨hs, fun i j => by simp⟩
  | cons c cs ih =>
    intro s s2 hs hnd h
    rw [List.nodup_cons] at hnd
    unfold placeClues at h
    simp only at h
    split at h
    · rename_i hz
      obtain ⟨a, hg⟩ := ih s s2 hs hnd.2 h
      refine ⟨a, fun i j => ?_⟩
      rw [hg]
      by_cases e : Cell.mk i j = c
      · have e1 : cellAt input i j = 0 := by rw [← e] at hz; exact hz
        simp [e1]
      · simp [e]
    · rename_i hz
      split at h
      · cases h
      · split at h
        · cases h
        · rename_i s1 hset
          obtain ⟨a, hg⟩ := ih s1 s2 (shaped_of_set hs hset) hnd.2 h
          refine ⟨a, fun i j => ?_⟩
          rw [hg, cellAt_of_set hs hset]
          by_cases e : Cell.mk i j = c
          · have hnm : Cell.mk i j ∉ cs := by rw [e]; exact hnd.1
            subst e
            have hz2 : ¬ cellAt input i j = 0 := hz
            simp [hnm, hz2]
          · have hne : ¬ (i = c.row ∧ j = c.col) := by
              rintro ⟨e1, e2⟩; apply e; rw [e1, e2]
            simp [e, hne]
        · cases h

theorem inRange_allCells {input : List (List Int)}
    (hr : ∀ i < 9, ∀ j < 9, 0 ≤ cellAt input i j ∧ cellAt input i j ≤ 9) :
    InRange input allCells := by
  intro c hc
  have := inBounds_iff.1 (mem_allCells.1 hc)
  exact hr _ this.1 _ this.2

/-- C4. On a 9x9 input whose entries all lie in [0,9] the constructor throws the conflict
error when two distinct cells hold the same non-blank digit and share a row, a column or a
3x3 box, and it succeeds otherwise. -/
theorem construct_conflictError_or_ok (input : List (List Int)) (h9 : NineByNine input)
    (hr : ∀ i < 9, ∀ j < 9, 0 ≤ cellAt input i j ∧ cellAt input i j ≤ 9) :
    (Conflict input → construct input = .error .ConflictError) ∧
    (¬ Conflict input → ∃ s, construct input = .ok s) := by
  rw [construct_of_nineByNine h9]
  obtain ⟨hA, hB⟩ := placeClues_spec input allCells initial shaped_initial sync_initial
    nodup_allCells (fun c hc => ⟨mem_allCells.1 hc, cellAt_initial _ _⟩) (inRange_allCells hr)
  constructor
  · intro hc
    have := hB (fun hp => (placeable_initial_iff input nodup_allCells).1 hp hc) []
    rwa [List.append_nil] at this
  · intro hc
    obtain ⟨s1, -, -, -, hrest⟩ := hA ((placeable_initial_iff input nodup_allCells).2 hc)
    refine ⟨s1, ?_⟩
    have := hrest []
    rwa [List.append_nil] at this

/-- Witness for C4: the demo clue grid is 9x9 with entries in [0,9]; it has no conflict and
is accepted. -/
theorem construct_conflictError_or_ok_witness :
    NineByNine puzzle1 ∧
    (∀ i < 9, ∀ j < 9, 0 ≤ cellAt puzzle1 i j ∧ cellAt puzzle1 i j ≤ 9) ∧
    ((Conflict puzzle1 → construct puzzle1 = .error .ConflictError) ∧
      (¬ Conflict puzzle1 → ∃ s, construct puzzle1 = .ok s)) :=
  ⟨by decide, by decide, construct_conflictError_or_ok puzzle1 (by decide) (by decide)⟩

/-- C5. When the constructor succeeds, the grid of the engine is the input grid, cell for
cell. -/
theorem construct_grid_eq_input (input : List (List Int)) (s : Sudoku)
    (h : construct input = .ok s) :
    s.grid = input ∧ ∀ i < 9, ∀ j < 9, cellAt s.grid i j = cellAt input i j := by
  have h9 : NineByNine input := by
    by_contra hn
    rw [construct_of_not_nineByNine hn] at h
    cases h
  rw [construct_of_nineByNine h9] at h
  obtain ⟨hs, hg⟩ := placeClues_grid input allCells initial s shaped_initial nodup_allCells h
  have hcells : ∀ i < 9, ∀ j < 9, cellAt s.grid i j = cellAt input i j := by
    intro i _ j _
    rw [hg, cellAt_initial]
    by_cases hz : cellAt input i j = 0
    · simp [hz]
    · split
      · rfl
      · rename_i hc
        have : Cell.mk i j ∈ allCells := mem_allCells.2 (inBounds_iff.2 ⟨by assumption, by assumption⟩)
        exact absurd ⟨this, hz⟩ hc
  exact ⟨(grid_ext hs.1 h9).1 hcells, hcells⟩

/-- Witness for C5: the constructor succeeds on the demo clue grid. -/
theorem construct_grid_eq_input_witness :
    construct puzzle1 = .ok (engineOf puzzle1) ∧ (engineOf puzzle1).grid = puzzle1 :=
  ⟨by decide, (construct_grid_eq_input puzzle1 (engineOf puzzle1) (by decide)).1⟩

theorem exists_first_split {α : Type} (p : α → Prop) :
    ∀ l : List α, (∃ x ∈ l, p x) →
      ∃ pre b post, l = pre ++ b :: post ∧ (∀ x ∈ pre, ¬ p x) ∧ p b := by
  intro l
  induction l with
  | nil => rintro ⟨x, hx, -⟩; cases hx
  | cons a l ih =>
    rintro ⟨x, hx, hpx⟩
    by_cases ha : p a
    · exact ⟨[], a, l, rfl, fun x hx => absurd hx (List.not_mem_nil x), ha⟩
    · have hx2 : x ∈ l := by
        rcases List.mem_cons.1 hx with e | e
        · subst e; exact absurd hpx ha
        · exact e
      obtain ⟨pre, b, post, e, h1, h2⟩ := ih ⟨x, hx2, hpx⟩
      refine ⟨a :: pre, b, post, by rw [e]; rfl, ?_, h2⟩
      intro y hy
      rcases List.mem_cons.1 hy with e2 | e2
      · subst e2; exact ha
      · exact h1 y e2

/-- C6, counterexample: the 9x9 input `clashThenTen` holds the out-of-range entry 10, and
the constructor does not throw the value error on it (it throws the conflict error for the
repeated 1 that precedes the 10). -/
theorem construct_out_of_range_not_valueError :
    NineByNine clashThenTen ∧
    (∃ i < 9, ∃ j < 9, ¬ (0 ≤ cellAt clashThenTen i j ∧ cellAt clashThenTen i j ≤ 9)) ∧
    construct clashThenTen = .error .ConflictError ∧
    construct clashThenTen ≠ .error .ValueError := by
  decide

/-- C6, amended. On a 9x9 input with an entry outside [0,9] the constructor fails: split
the row-major cell order at the first out-of-range entry; the constructor throws the value
error when no two clues among the cells before it conflict, and the conflict error when two
of them do. -/
theorem construct_out_of_range (input : List (List Int)) (h9 : NineByNine input)
    (hbad : ∃ i < 9, ∃ j < 9, ¬ (0 ≤ cellAt input i j ∧ cellAt input i j ≤ 9)) :
    ∃ pre bad post, allCells = pre ++ bad :: post ∧ InRange input pre ∧
      ¬ (0 ≤ cellAt input bad.row bad.col ∧ cellAt input bad.row bad.col ≤ 9) ∧
      (¬ ConflictIn input pre → construct input = .error .ValueError) ∧
      (ConflictIn input pre → construct input = .error .ConflictError) := by
  obtain ⟨i, hi, j, hj, hij⟩ := hbad
  obtain ⟨pre, bad, post, hsplit, hpre, hb⟩ := exists_first_split
    (fun c : Cell => ¬ (0 ≤ cellAt input c.row c.col ∧ cellAt input c.row c.col ≤ 9)) allCells
    ⟨Cell.mk i j, mem_allCells.2 (inBounds_iff.2 ⟨hi, hj⟩), hij⟩
  have hin : InRange input pre := fun c hc => not_not.1 (hpre c hc)
  refine ⟨pre, bad, post, hsplit, hin, hb, ?_, ?_⟩
  all_goals
    rw [construct_of_nineByNine h9, hsplit]
    have hnd : pre.Nodup := by
      have := nodup_allCells
      rw [hsplit] at this
      exact (List.nodup_append.1 this).1
    obtain ⟨hA, hB⟩ := placeClues_spec input pre initial shaped_initial sync_initial hnd
      (fun c hc => ⟨mem_allCells.1 (by rw [hsplit]; exact List.mem_append_left _ hc),
        cellAt_initial _ _⟩) hin
    intro hc
  · obtain ⟨s1, -, -, -, hrest⟩ := hA ((placeable_initial_iff input hnd).2 hc)
    rw [hrest]
    unfold placeClues
    have hz : ¬ cellAt input bad.row bad.col = blank := by
      intro e; apply hb; rw [e]; simp [blank]
    have hv : cellAt input bad.row bad.col < 1 ∨ cellAt input bad.row bad.col > 9 := by
      simp only [blank] at hz; omega
    simp only [hz, if_false, hv, if_true]
  · exact hB (fun hp => (placeable_initial_iff input hnd).1 hp hc) _

/-- Witness for C6: `twoCluesThenTen` is 9x9 and holds the out-of-range entry 10. -/
theorem construct_out_of_range_witness :
    NineByNine twoCluesThenTen ∧
    (∃ i < 9, ∃ j < 9, ¬ (0 ≤ cellAt twoCluesThenTen i j ∧ cellAt twoCluesThenTen i j ≤ 9)) ∧
    ∃ pre bad post, allCells = pre ++ bad :: post ∧ InRange twoCluesThenTen pre ∧
      ¬ (0 ≤ cellAt twoCluesThenTen bad.row bad.col ∧
        cellAt twoCluesThenTen bad.row bad.col ≤ 9) ∧
      (¬ ConflictIn twoCluesThenTen pre → construct twoCluesThenTen = .error .ValueError) ∧
      (ConflictIn twoCluesThenTen pre → construct twoCluesThenTen = .error .ConflictError) :=
  ⟨by decide, by decide, construct_out_of_range twoCluesThenTen (by decide) (by decide)⟩

/-- C7. The constructor throws the shape error exactly when the input does not have
exactly 9 rows or some row does not have exactly 9 entries, whatever the entries are. -/
theorem construct_shapeError_iff (input : List (List Int)) :
    construct input = .error .ShapeError ↔
      ¬ (input.length = 9 ∧ ∀ row ∈ input, row.length = 9) := by
  constructor
  · intro h hn
    have h9 : NineByNine input := hn
    rw [construct_of_nineByNine h9] at h
    exact placeClues_ne_shapeError input _ _ h
  · intro hn
    exact construct_of_not_nineByNine hn

/-! ## Search -/

theorem set_ne_outOfFuel (s : Sudoku) (c : Cell) (d : Int) :
    set s c d ≠ .error .outOfFuel := by
  unfold set
  split
  · intro h; cases h
  · split
    · intro h; cases h
    · simp only
      split <;> intro h <;> cases h

theorem getCandidates_ne_outOfFuel (s : Sudoku) (c : Cell) :
    getCandidates s c ≠ .error .outOfFuel := by
  unfold getCandidates
  split
  · intro h; cases h
  · simp only
    split <;> intro h <;> cases h

theorem getCandidates_spec {s : Sudoku} {c : Cell} {cands : List Int}
    (h : getCandidates s c = .ok cands) :
    inBounds c = true ∧
    cands = setIntersection (slot s.boxCandidates (getBox c))
      (setIntersection (slot s.rowCandidates c.row) (slot s.colCandidates c.col)) := by
  unfold getCandidates at h
  split at h
  · cases h
  · rename_i hb
    simp only at h
    split at h
    · cases h
    · simp only [Except.ok.injEq] at h
      simp only [Bool.not_eq_true, Bool.not_eq_false_eq_eq_true, Bool.not_eq_true'] at hb
      exact ⟨by simpa using hb, h.symm⟩

theorem scanCells_ne_outOfFuel (s : Sudoku) :
    ∀ (cs : List Cell) (st : Scan), scanCells s cs st ≠ .error .outOfFuel := by
  intro cs
  induction cs with
  | nil => intro st h; cases h
  | cons c cs ih =>
    intro st
    unfold scanCells
    split
    · split
      · rename_i e he
        intro h
        simp only [Except.error.injEq] at h
        subst h
        exact getCandidates_ne_outOfFuel s c he
      · split
        · exact ih _
        · exact ih _
    · exact ih _

/-- What the scan of `getSmallestCandidate` keeps: the candidate set is the one passed in
and still empty, or it is the candidate set of the remembered cell, which is a blank cell
of the grid. -/
theorem scanCells_inv (s : Sudoku) :
    ∀ (cs : List Cell) (st st2 : Scan), scanCells s cs st = .ok st2 →
      (st.candidates = [] ∨
        (cellAt s.grid st.cell.row st.cell.col = 0 ∧
          getCandidates s st.cell = .ok st.candidates)) →
      (st2.candidates = [] ∨
        (cellAt s.grid st2.cell.row st2.cell.col = 0 ∧
          getCandidates s st2.cell = .ok st2.candidates)) := by
  intro cs
  induction cs with
  | nil =>
    intro st st2 h hst
    simp only [scanCells, Except.ok.injEq] at h
    subst h
    exact hst
  | cons c cs ih =>
    intro st st2 h hst
    unfold scanCells at h
    split at h
    · rename_i hz
      split at h
      · cases h
      · rename_i tmp htmp
        split at h
        · exact ih _ _ h (Or.inr ⟨hz, htmp⟩)
        · exact ih _ _ h hst
    · exact ih _ _ h hst

theorem getSmallestCandidate_ne_outOfFuel (s : Sudoku) (c : Cell) (l : List Int) :
    getSmallestCandidate s c l ≠ .error .outOfFuel := by
  unfold getSmallestCandidate
  split
  · rename_i e he
    intro h
    simp only [Except.error.injEq] at h
    subst h
    exact scanCells_ne_outOfFuel s _ _ he
  · split <;> intro h <;> cases h

/-- Called as `solve` calls it, `getSmallestCandidate` returns either the empty candidate
set or a blank in-bounds cell together with `getCandidates` of that cell. -/
theorem getSmallestCandidate_spec {s : Sudoku} {c0 c : Cell} {cands : List Int}
    (h : getSmallestCandidate s c0 [] = .ok (c, cands)) (hne : cands ≠ []) :
    inBounds c = true ∧ cellAt s.grid c.row c.col = 0 ∧ getCandidates s c = .ok cands := by
  unfold getSmallestCandidate at h
  split at h
  · cases h
  · rename_i st hst
    split at h
    · cases h
    · simp only [Except.ok.injEq, Prod.mk.injEq] at h
      have := scanCells_inv s _ _ _ hst (Or.inl rfl)
      rw [h.1, h.2] at this
      rcases this with e | ⟨e1, e2⟩
      · exact absurd e hne
      · exact ⟨(getCandidates_spec e2).1, e1, e2⟩

theorem countP_update {α : Type} [DecidableEq α] (p q : α → Bool) (c : α) (hp : p c = true)
    (hq : q c = false) (hpq : ∀ x, x ≠ c → q x = p x) :
    ∀ l : List α, l.Nodup → c ∈ l → l.countP q + 1 = l.countP p := by
  intro l
  induction l with
  | nil => intro _ h; cases h
  | cons a l ih =>
    intro hnd hc
    rw [List.nodup_cons] at hnd
    rw [List.countP_cons, List.countP_cons]
    by_cases e : a = c
    · subst e
      have : l.countP q = l.countP p := by
        apply List.countP_congr
        intro x hx
        have hxa : x ≠ a := fun e => hnd.1 (e ▸ hx)
        rw [hpq x hxa]
      simp [hp, hq, this]
    · have hc2 : c ∈ l := by
        rcases List.mem_cons.1 hc with e2 | e2
        · exact absurd e2.symm e
        · exact e2
      have := ih hnd.2 hc2
      rw [hpq a e]
      omega

theorem blanks_of_set {s s1 : Sudoku} {c : Cell} {d : Int} (hs : Shaped s)
    (hblank : cellAt s.grid c.row c.col = 0) (h : set s c d = .ok (true, s1)) :
    blanks s1 + 1 = blanks s := by
  have hcell := cellAt_of_set hs h
  obtain ⟨hb, h1, -⟩ := set_true_spec h
  unfold blanks
  apply countP_update _ _ c
  · simp [hblank, blank]
  · rw [hcell]; simp [blank]; omega
  · intro x hx
    rw [hcell]
    have : ¬ (x.row = c.row ∧ x.col = c.col) := by
      rintro ⟨e1, e2⟩; apply hx; cases x; cases c; simp_all
    simp [this]
  · exact nodup_allCells
  · exact mem_allCells.2 hb

theorem blanks_le (s : Sudoku) : blanks s ≤ 81 := by
  unfold blanks
  rw [← length_allCells]
  exact List.countP_le_length _

/-- The candidate loop behind a recursive call that never answers `false` tries the first
candidate only. -/
theorem tryCandidates_cons {recur : Sudoku → Except Fault (Bool × Sudoku)}
    (hrec : ∀ s1 s2, recur s1 ≠ .ok (false, s2)) (cell : Cell) (val : Int) (rest : List Int)
    (s : Sudoku) :
    tryCandidates recur cell (val :: rest) s =
      match set s cell val with
      | .error e => .error e
      | .ok (ret, s1) => if !ret then .error .assertion else recur s1 := by
  cases hset : set s cell val with
  | error e => simp only [tryCandidates, hset]
  | ok p =>
    obtain ⟨ret, s1⟩ := p
    cases ret with
    | false => simp only [tryCandidates, hset, Bool.not_false, if_true]
    | true =>
      simp only [tryCandidates, hset, Bool.not_true, Bool.false_eq_true, if_false]
      cases hr : recur s1 with
      | error e => rfl
      | ok q =>
        obtain ⟨b, s2⟩ := q
        cases b with
        | false => exact absurd hr (hrec _ _)
        | true => rfl

/-- No activation of `solve` answers `false`. -/
theorem solveFuel_ne_false : ∀ (fuel : Nat) (s s2 : Sudoku), solveFuel fuel s ≠ .ok (false, s2) := by
  intro fuel
  induction fuel with
  | zero => intro s s2 h; cases h
  | succ n ih =>
    intro s s2
    unfold solveFuel solveBody
    split
    · intro h; cases h
    · rename_i cell cands _
      split
      · intro h; cases h
      · cases cands with
        | nil => rename_i hc; simp at hc
        | cons val rest =>
          rw [tryCandidates_cons ih]
          split
          · intro h; cases h
          · rename_i ret s1 _
            split
            · intro h; cases h
            · exact ih s1 s2

/-- The body of `solve` consults its recursive call only on states of the engine's shape
that have exactly one blank cell fewer than the state at entry. -/
theorem solveBody_congr {s : Sudoku} (hs : Shaped s) (fuel : Nat)
    (recur : Sudoku → Except Fault (Bool × Sudoku))
    (hrec : ∀ s1, Shaped s1 → blanks s1 + 1 = blanks s → recur s1 = solveFuel fuel s1) :
    solveBody recur s = solveBody (solveFuel fuel) s := by
  unfold solveBody
  cases hg : getSmallestCandidate s (Cell.mk 0 0) [] with
  | error e => rfl
  | ok p =>
    obtain ⟨cell, cands⟩ := p
    simp only
    cases cands with
    | nil => rfl
    | cons val rest =>
      have hsp := getSmallestCandidate_spec hg (List.cons_ne_nil _ _)
      rw [if_neg (by simp), if_neg (by simp)]
      cases hset : set s cell val with
      | error e => simp only [tryCandidates, hset]
      | ok q =>
        obtain ⟨ret, s1⟩ := q
        cases ret with
        | false => simp only [tryCandidates, hset, Bool.not_false, if_true]
        | true =>
          have e := hrec s1 (shaped_of_set hs hset) (blanks_of_set hs hsp.2.1 hset)
          simp only [tryCandidates, hset, Bool.not_true, Bool.false_eq_true, if_false, e]
          cases hr : solveFuel fuel s1 with
          | error e => rfl
          | ok q2 =>
            obtain ⟨b, s2⟩ := q2
            cases b with
            | false => exact absurd hr (solveFuel_ne_false _ _ _)
            | true => rfl

theorem solveFuel_ne_outOfFuel :
    ∀ (fuel : Nat) (s : Sudoku), Shaped s → blanks s < fuel →
      solveFuel fuel s ≠ .error .outOfFuel := by
  intro fuel
  induction fuel with
  | zero => intro s _ h; exact absurd h (Nat.not_lt_zero _)
  | succ n ih =>
    intro s hs hlt
    unfold solveFuel solveBody
    cases hg : getSmallestCandidate s (Cell.mk 0 0) [] with
    | error e =>
      intro h
      simp only [Except.error.injEq] at h
      subst h
      exact getSmallestCandidate_ne_outOfFuel _ _ _ hg
    | ok p =>
      obtain ⟨cell, cands⟩ := p
      simp only
      cases cands with
      | nil => intro h; simp at h
      | cons val rest =>
        have hsp := getSmallestCandidate_spec hg (List.cons_ne_nil _ _)
        rw [if_neg (by simp), tryCandidates_cons (solveFuel_ne_false n)]
        cases hset : set s cell val with
        | error e =>
          intro h
          simp only [Except.error.injEq] at h
          subst h
          exact set_ne_outOfFuel _ _ _ hset
        | ok q =>
          obtain ⟨ret, s1⟩ := q
          cases ret with
          | false => intro h; simp at h
          | true =>
            simp only [Bool.not_true, Bool.false_eq_true, if_false]
            have hb := blanks_of_set hs hsp.2.1 hset
            exact ih s1 (shaped_of_set hs hset) (by omega)

theorem solveFuel_eq_of_lt :
    ∀ (fuel : Nat) (s : Sudoku), Shaped s → blanks s < fuel →
      solveFuel fuel s = solveFuel (blanks s + 1) s := by
  intro fuel
  induction fuel with
  | zero => intro s _ h; exact absurd h (Nat.not_lt_zero _)
  | succ n ih =>
    intro s hs hlt
    have h1 : solveFuel (n + 1) s = solveBody (solveFuel n) s := rfl
    have h2 : solveFuel (blanks s + 1) s = solveBody (solveFuel (blanks s)) s := rfl
    rw [h1, h2]
    apply solveBody_congr hs
    intro s1 hs1 hb
    rw [ih s1 hs1 (by omega), hb]

/-- C9. `solve` terminates on every engine state: at most 81 cells are blank; a recursion
budget above the number of blank cells is never used up, and the answer does not depend on
it; and the body of `solve` recurs only on states with exactly one blank cell fewer than
its state at entry. -/
theorem solve_terminates (s : Sudoku) (hs : Shaped s) :
    blanks s ≤ 81 ∧
    (∀ fuel, blanks s < fuel →
      solveFuel fuel s ≠ .error .outOfFuel ∧ solveFuel fuel s = solveFuel (blanks s + 1) s) ∧
    solve s ≠ .error .outOfFuel ∧
    (∀ fuel recur,
      (∀ s1, Shaped s1 → blanks s1 + 1 = blanks s → recur s1 = solveFuel fuel s1) →
      solveBody recur s = solveFuel (fuel + 1) s) := by
  have hle := blanks_le s
  refine ⟨hle, fun fuel hlt => ⟨solveFuel_ne_outOfFuel fuel s hs hlt,
    solveFuel_eq_of_lt fuel s hs hlt⟩, ?_, fun fuel recur hrec => ?_⟩
  · exact solveFuel_ne_outOfFuel 82 s hs (by omega)
  · exact solveBody_congr hs fuel recur hrec

/-- Witness for C9: the engine built from the demo clue grid has the constructor's
shape. -/
theorem solve_terminates_witness :
    Shaped (engineOf puzzle1) ∧ blanks (engineOf puzzle1) ≤ 81 ∧
      solve (engineOf puzzle1) ≠ .error .outOfFuel :=
  ⟨by decide, (solve_terminates (engineOf puzzle1) (by decide)).1,
    (solve_terminates (engineOf puzzle1) (by decide)).2.2.1⟩

/-! ## Runs of `solve` on concrete inputs -/

/-- When the first `k` nested activations each place their first candidate and recur,
`solve` answers what the activation reached answers. -/
theorem solveFuel_descend :
    ∀ (k : Nat) (s s2 : Sudoku), descend k s = some s2 →
      ∀ m, solveFuel (m + k) s = solveFuel m s2 := by
  intro k
  induction k with
  | zero =>
    intro s s2 h m
    simp only [descend, Option.some.injEq] at h
    subst h
    rfl
  | succ k ih =>
    intro s s2 h m
    unfold descend at h
    split at h
    · rename_i cell val rest hg
      split at h
      · rename_i s1 hset
        have e : solveFuel (m + (k + 1)) s = solveBody (solveFuel (m + k)) s := rfl
        rw [e]
        unfold solveBody
        rw [hg]
        simp only
        rw [if_neg (by simp), tryCandidates_cons (solveFuel_ne_false _), hset]
        simp only [Bool.not_true, Bool.false_eq_true, if_false]
        exact ih s1 s2 h m
      · cases h
    · cases h

theorem descend_puzzle1_12 :
    descend 12 (engineOf puzzle1) = some (engineOf puzzle1After12) := by
  decide!

theorem descend_puzzle1_24 :
    descend 12 (engineOf puzzle1After12) = some (engineOf puzzle1After24) := by
  decide!

theorem descend_puzzle1_46 :
    descend 22 (engineOf puzzle1After24) = some (filled puzzle1Solution) := by
  decide!

theorem solveFuel_filled_puzzle1 :
    solveFuel 36 (filled puzzle1Solution) = .ok (true, filled puzzle1Solution) := by
  decide!

theorem solve_puzzle1 : solve (engineOf puzzle1) = .ok (true, filled puzzle1Solution) :=
  (solveFuel_descend 12 _ _ descend_puzzle1_12 70).trans
    ((solveFuel_descend 12 _ _ descend_puzzle1_24 58).trans
    ((solveFuel_descend 22 _ _ descend_puzzle1_46 36).trans
    (solveFuel_filled_puzzle1)))

theorem descend_allBlank_6 :
    descend 6 (engineOf allBlank) = some (engineOf allBlankAfter6) := by
  decide!

theorem descend_allBlank_12 :
    descend 6 (engineOf allBlankAfter6) = some (engineOf allBlankAfter12) := by
  decide!

theorem descend_allBlank_18 :
    descend 6 (engineOf allBlankAfter12) = some (engineOf allBlankAfter18) := by
  decide!

theorem descend_allBlank_25 :
    descend 7 (engineOf allBlankAfter18) = some (engineOf allBlankAfter25) := by
  decide!

theorem descend_allBlank_33 :
    descend 8 (engineOf allBlankAfter25) = some (engineOf allBlankAfter33) := by
  decide!

theorem descend_allBlank_42 :
    descend 9 (engineOf allBlankAfter33) = some (engineOf allBlankAfter42) := by
  decide!

theorem descend_allBlank_52 :
    descend 10 (engineOf allBlankAfter42) = some (engineOf allBlankAfter52) := by
  decide!

theorem descend_allBlank_64 :
    descend 12 (engineOf allBlankAfter52) = some (engineOf allBlankAfter64) := by
  decide!

theorem descend_allBlank_81 :
    descend 17 (engineOf allBlankAfter64) = some (filled allBlankSolved) := by
  decide!

theorem solveFuel_filled_allBlank :
    solveFuel 1 (filled allBlankSolved) = .ok (true, filled allBlankSolved) := by
  decide!

theorem solve_allBlank : solve (engineOf allBlank) = .ok (true, filled allBlankSolved) :=
  (solveFuel_descend 6 _ _ descend_allBlank_6 76).trans
    ((solveFuel_descend 6 _ _ descend_allBlank_12 70).trans
    ((solveFuel_descend 6 _ _ descend_allBlank_18 64).trans
    ((solveFuel_descend 7 _ _ descend_allBlank_25 57).trans
    ((solveFuel_descend 8 _ _ descend_allBlank_33 49).trans
    ((solveFuel_descend 9 _ _ descend_allBlank_42 40).trans
    ((solveFuel_descend 10 _ _ descend_allBlank_52 30).trans
    ((solveFuel_descend 12 _ _ descend_allBlank_64 18).trans
    ((solveFuel_descend 17 _ _ descend_allBlank_81 1).trans
    (solveFuel_filled_allBlank)))))))))

/-- C1, the code at the failing input: the constructor accepts `deadEnd`, `solve` answers
`true` on it at once, and the grid is still `deadEnd`, with (0,8) and 71 more cells
blank. -/
theorem solve_true_with_blank_cell :
    construct deadEnd = .ok (engineOf deadEnd) ∧
    solve (engineOf deadEnd) = .ok (true, engineOf deadEnd) ∧
    (engineOf deadEnd).grid = deadEnd ∧ cellAt deadEnd 0 8 = 0 ∧
    blanks (engineOf deadEnd) = 72 ∧ ¬ NoBlank (engineOf deadEnd).grid := by
  decide!

/-- C2, the code at the failing input: `eightBlanks` is accepted and `puzzle1Solution` is a
complete valid grid that agrees with all of its clues, yet `solve` places 1 at (1,1) and 9
at (1,2), answers `true`, and leaves (1,6) and five more cells blank. -/
theorem solve_misses_solution :
    Solved puzzle1Solution ∧ AgreesWithClues eightBlanks puzzle1Solution ∧
    construct eightBlanks = .ok (engineOf eightBlanks) ∧
    solve (engineOf eightBlanks) = .ok (true,
      { grid := eightBlanksLeft
        rowCandidates := [[], [4], [1, 7, 9], [], [1, 7], [], [], [], []]
        colCandidates := [[], [4, 7], [1, 7], [], [], [], [1, 9], [], []]
        boxCandidates := [[4, 7], [], [1, 9], [1, 7], [], [], [], [], []] }) ∧
    cellAt eightBlanksLeft 1 6 = 0 ∧ ¬ NoBlank eightBlanksLeft := by
  decide!

/-- C3. The constructor accepts the demo clue grid and the known solution; before `solve`
the two engines compare unequal; `solve` answers `true` and leaves exactly the known
solution in the grid (with every candidate set empty), so the engines compare equal
afterwards. -/
theorem puzzle1_solved :
    construct puzzle1 = .ok (engineOf puzzle1) ∧
    construct puzzle1Solution = .ok (engineOf puzzle1Solution) ∧
    ne (engineOf puzzle1) (engineOf puzzle1Solution) = true ∧
    eq (engineOf puzzle1) (engineOf puzzle1Solution) = false ∧
    solve (engineOf puzzle1) = .ok (true, filled puzzle1Solution) ∧
    (filled puzzle1Solution).grid = puzzle1Solution ∧
    eq (filled puzzle1Solution) (engineOf puzzle1Solution) = true ∧
    ne (filled puzzle1Solution) (engineOf puzzle1Solution) = false :=
  ⟨by decide!, by decide!, by decide!, by decide!, solve_puzzle1, rfl, by decide!,
    by decide!⟩

/-- C8. The constructor accepts the all-blank input, `solve` answers `true` on it, and the
grid it leaves, `allBlankSolved`, has no blank cell and holds each digit 1..9 exactly once
in every row, column and 3x3 box. -/
theorem allBlank_solved :
    construct allBlank = .ok (engineOf allBlank) ∧
    solve (engineOf allBlank) = .ok (true, filled allBlankSolved) ∧
    (filled allBlankSolved).grid = allBlankSolved ∧
    NoBlank allBlankSolved ∧ EachDigitOnce allBlankSolved :=
  ⟨by decide!, solve_allBlank, rfl, by decide!, by decide!⟩

/-! ## Candidate sets -/

theorem isSet_setErase {l : List Int} (h : IsSet l) (d : Int) : IsSet (setErase l d) :=
  List.Pairwise.filter _ h

theorem isSet_setIntersection {a : List Int} (h : IsSet a) (b : List Int) :
    IsSet (setIntersection a b) :=
  List.Pairwise.filter _ h

theorem isSet_fullSet : IsSet fullSet := by
  decide

theorem length_le_nine {l : List Int} (hs : IsSet l) (hd : ∀ d ∈ l, 1 ≤ d ∧ d ≤ 9) :
    l.length ≤ 9 := by
  have hnd : l.Nodup := by
    unfold IsSet at hs
    exact hs.imp (fun h => ne_of_lt h)
  have hsub : l ⊆ fullSet := fun d hdm => mem_fullSet.2 (hd d hdm)
  exact (List.subperm_of_subset hnd hsub).length_le

/-- Inserting into a `std::set` the element just erased from it gives the set back. -/
theorem setInsert_setErase {l : List Int} (hs : IsSet l) {d : Int} (hd : d ∈ l) :
    setInsert (setErase l d) d = l := by
  induction l with
  | nil => cases hd
  | cons x xs ih =>
    unfold IsSet at hs
    rw [List.pairwise_cons] at hs
    by_cases e : x = d
    · subst e
      have hfil : setErase xs x = xs := by
        unfold setErase
        rw [List.filter_eq_self]
        intro y hy
        have := hs.1 y hy
        simp only [bne_iff_ne, ne_eq]
        omega
      have : setErase (x :: xs) x = xs := by
        unfold setErase at hfil ⊢
        rw [List.filter_cons]
        simp only [bne_self_eq_false, Bool.false_eq_true, if_false]
        exact hfil
      rw [this]
      cases xs with
      | nil => rfl
      | cons y ys =>
        have hxy := hs.1 y (List.mem_cons_self _ _)
        simp [setInsert, hxy]
    · have hdx : d ∈ xs := by
        rcases List.mem_cons.1 hd with h | h
        · exact absurd h.symm e
        · exact h
      have hlt := hs.1 d hdx
      have : setErase (x :: xs) d = x :: setErase xs d := by
        unfold setErase
        rw [List.filter_cons]
        simp [e]
      rw [this]
      have h1 : ¬ d < x := by omega
      have h2 : ¬ d = x := fun h => e h.symm
      simp only [setInsert, h1, h2, if_false]
      rw [ih hs.2 hdx]

theorem set_getD_self {l : List (List Int)} {k : Nat} (hk : k < l.length) :
    l.set k (l.getD k []) = l := by
  apply List.ext_getElem?
  intro n
  rw [List.getElem?_set]
  by_cases e : k = n
  · subst e
    simp [hk, List.getD_eq_getElem?_getD]
  · simp [e]

theorem set_set_restore {l : List (List Int)} {k : Nat} (hk : k < l.length) (v : List Int) :
    (l.set k v).set k (l.getD k []) = l := by
  rw [List.set_set, set_getD_self hk]

theorem setCell_setCell_restore {g : List (List Int)} (hg : NineByNine g) {i j : Nat}
    (hi : i < 9) (hj : j < 9) (x : Int) :
    setCell (setCell g i j x) i j (cellAt g i j) = g := by
  apply (grid_ext (nineByNine_setCell (nineByNine_setCell hg i j x) i j _) hg).1
  intro k _ l _
  rw [cellAt_setCell (nineByNine_setCell hg i j x) hi hj, cellAt_setCell hg hi hj]
  by_cases e : k = i ∧ l = j
  · simp [e]
  · simp [e]

theorem shaped_rows {s : Sudoku} (hs : Shaped s) {c : Cell} (hb : inBounds c = true) :
    c.row < s.rowCandidates.length ∧ c.col < s.colCandidates.length ∧
      getBox c < s.boxCandidates.length := by
  have hrc := inBounds_iff.1 hb
  have hx := getBox_lt hb
  rw [hs.2.1, hs.2.2.1, hs.2.2.2]
  exact ⟨hrc.1, hrc.2, hx⟩

/-- The three slots after a successful `set`. -/
theorem slots_of_set {s s1 : Sudoku} {c : Cell} {d : Int} (hs : Shaped s)
    (h : set s c d = .ok (true, s1)) (k : Nat) :
    slot s1.rowCandidates k =
      (if k = c.row then setErase (slot s.rowCandidates c.row) d else slot s.rowCandidates k) ∧
    slot s1.colCandidates k =
      (if k = c.col then setErase (slot s.colCandidates c.col) d else slot s.colCandidates k) ∧
    slot s1.boxCandidates k =
      (if k = getBox c then setErase (slot s.boxCandidates (getBox c)) d
        else slot s.boxCandidates k) := by
  obtain ⟨hb, -, -, -, -, -, -, e2, e3, e4⟩ := set_true_spec h
  obtain ⟨l1, l2, l3⟩ := shaped_rows hs hb
  rw [e2, e3, e4]
  exact ⟨slot_set l1 _ k, slot_set l2 _ k, slot_set l3 _ k⟩

theorem wellFormed_of_set {s s1 : Sudoku} {c : Cell} {d : Int} (hw : WellFormed s)
    (h : set s c d = .ok (true, s1)) : WellFormed s1 := by
  obtain ⟨hs, hsets, hdig⟩ := hw
  have hb := (set_true_spec h).1
  have hrc := inBounds_iff.1 hb
  have hx := getBox_lt hb
  refine ⟨shaped_of_set hs h, fun k hk => ?_, fun k hk => ?_⟩
  · obtain ⟨e1, e2, e3⟩ := slots_of_set hs h k
    rw [e1, e2, e3]
    refine ⟨?_, ?_, ?_⟩
    · split
      · exact isSet_setErase (hsets _ hrc.1).1 d
      · exact (hsets k hk).1
    · split
      · exact isSet_setErase (hsets _ hrc.2).2.1 d
      · exact (hsets k hk).2.1
    · split
      · exact isSet_setErase (hsets _ hx).2.2 d
      · exact (hsets k hk).2.2
  · obtain ⟨e1, e2, e3⟩ := slots_of_set hs h k
    rw [e1, e2, e3]
    refine ⟨fun x hxm => ?_, fun x hxm => ?_, fun x hxm => ?_⟩
    · split at hxm
      · exact (hdig _ hrc.1).1 x (mem_setErase.1 hxm).1
      · exact (hdig k hk).1 x hxm
    · split at hxm
      · exact (hdig _ hrc.2).2.1 x (mem_setErase.1 hxm).1
      · exact (hdig k hk).2.1 x hxm
    · split at hxm
      · exact (hdig _ hx).2.2 x (mem_setErase.1 hxm).1
      · exact (hdig k hk).2.2 x hxm

theorem sync_digitSync {s : Sudoku} (hy : Sync s) : DigitSync s := by
  intro k hk d hd
  have hd1 := mem_fullSet.1 hd
  rw [hy.1 k hk d, hy.2.1 k hk d, hy.2.2 k hk d]
  exact ⟨⟨fun h => h.2.2, fun h => ⟨hd1.1, hd1.2, h⟩⟩,
    ⟨fun h => h.2.2, fun h => ⟨hd1.1, hd1.2, h⟩⟩,
    ⟨fun h => h.2.2, fun h => ⟨hd1.1, hd1.2, h⟩⟩⟩

theorem sync_onlyDigits {s : Sudoku} (hy : Sync s) : OnlyDigits s := by
  intro k hk
  exact ⟨fun d hd => ⟨((hy.1 k hk d).1 hd).1, ((hy.1 k hk d).1 hd).2.1⟩,
    fun d hd => ⟨((hy.2.1 k hk d).1 hd).1, ((hy.2.1 k hk d).1 hd).2.1⟩,
    fun d hd => ⟨((hy.2.2 k hk d).1 hd).1, ((hy.2.2 k hk d).1 hd).2.1⟩⟩

theorem sync_of_digitSync {s : Sudoku} (hy : DigitSync s) (hd : OnlyDigits s) : Sync s := by
  refine ⟨fun k hk d => ?_, fun k hk d => ?_, fun k hk d => ?_⟩
  · constructor
    · intro h
      have h19 := (hd k hk).1 d h
      exact ⟨h19.1, h19.2, ((hy k hk d (mem_fullSet.2 h19)).1).1 h⟩
    · rintro ⟨h1, h9, h⟩
      exact ((hy k hk d (mem_fullSet.2 ⟨h1, h9⟩)).1).2 h
  · constructor
    · intro h
      have h19 := (hd k hk).2.1 d h
      exact ⟨h19.1, h19.2, ((hy k hk d (mem_fullSet.2 h19)).2.1).1 h⟩
    · rintro ⟨h1, h9, h⟩
      exact ((hy k hk d (mem_fullSet.2 ⟨h1, h9⟩)).2.1).2 h
  · constructor
    · intro h
      have h19 := (hd k hk).2.2 d h
      exact ⟨h19.1, h19.2, ((hy k hk d (mem_fullSet.2 h19)).2.2).1 h⟩
    · rintro ⟨h1, h9, h⟩
      exact ((hy k hk d (mem_fullSet.2 ⟨h1, h9⟩)).2.2).2 h

theorem digitSync_of_set {s s1 : Sudoku} {c : Cell} {d : Int} (hs : Shaped s)
    (hy : DigitSync s) (hblank : cellAt s.grid c.row c.col = 0)
    (h : set s c d = .ok (true, s1)) : DigitSync s1 := by
  have hcell := cellAt_of_set hs h
  have hb := (set_true_spec h).1
  have hrc := inBounds_iff.1 hb
  intro k hk x hx
  have hx1 := (mem_fullSet.1 hx).1
  obtain ⟨hr, hc, hbx⟩ := hy k hk x hx
  obtain ⟨e1, e2, e3⟩ := slots_of_set hs h k
  rw [e1, e2, e3]
  refine ⟨?_, ?_, ?_⟩
  · by_cases e : k = c.row
    · subst e
      simp only [if_true, mem_setErase, hr, hcell]
      constructor
      · rintro ⟨h3, hne⟩ j hj
        by_cases ej : j = c.col
        · simp [ej]; exact fun e => hne e.symm
        · simp [ej]; exact h3 j hj
      · intro h3
        refine ⟨fun j hj => ?_, ?_⟩
        · by_cases ej : j = c.col
          · subst ej; rw [hblank]; omega
          · have := h3 j hj; simpa [ej] using this
        · have := h3 c.col hrc.2; simp at this; exact fun e => this e.symm
    · simp only [e, if_false, hr, hcell, false_and]
  · by_cases e : k = c.col
    · subst e
      simp only [if_true, mem_setErase, hc, hcell]
      constructor
      · rintro ⟨h3, hne⟩ i hi
        by_cases ei : i = c.row
        · simp [ei]; exact fun e => hne e.symm
        · simp [ei]; exact h3 i hi
      · intro h3
        refine ⟨fun i hi => ?_, ?_⟩
        · by_cases ei : i = c.row
          · subst ei; rw [hblank]; omega
          · have := h3 i hi; simpa [ei] using this
        · have := h3 c.row hrc.1; simp at this; exact fun e => this e.symm
    · simp only [e, if_false, hc, hcell, and_false]
  · by_cases e : k = getBox c
    · subst e
      simp only [if_true, mem_setErase, hbx, hcell]
      constructor
      · rintro ⟨h3, hne⟩ i hi j hj hij
        by_cases eij : i = c.row ∧ j = c.col
        · simp [eij]; exact fun e => hne e.symm
        · simp [eij]; exact h3 i hi j hj hij
      · intro h3
        refine ⟨fun i hi j hj hij => ?_, ?_⟩
        · by_cases eij : i = c.row ∧ j = c.col
          · rw [eij.1, eij.2, hblank]; omega
          · have := h3 i hi j hj hij; simpa [eij] using this
        · have := h3 c.row hrc.1 c.col hrc.2 rfl; simp at this; exact fun e => this e.symm
    · simp only [e, if_false, hbx, hcell]
      constructor
      · intro h3 i hi j hj hij
        have hne : ¬ (i = c.row ∧ j = c.col) := by
          rintro ⟨rfl, rfl⟩; exact e hij.symm
        simp [hne]; exact h3 i hi j hj hij
      · intro h3 i hi j hj hij
        have hne : ¬ (i = c.row ∧ j = c.col) := by
          rintro ⟨rfl, rfl⟩; exact e hij.symm
        have := h3 i hi j hj hij; simpa [hne] using this

/-- With registries in sync for the digits, a digit found in the three slots of a cell is
held by no cell of the row, the column or the box of that cell. -/
theorem noClash_of_mem_slots {s : Sudoku} (hy : DigitSync s) {c : Cell}
    (hb : inBounds c = true) {d : Int} (h1 : 1 ≤ d) (h9 : d ≤ 9)
    (hr : d ∈ slot s.rowCandidates c.row) (hc : d ∈ slot s.colCandidates c.col)
    (hx : d ∈ slot s.boxCandidates (getBox c)) : NoClash s.grid c d := by
  have hrc := inBounds_iff.1 hb
  have hd := mem_fullSet.2 ⟨h1, h9⟩
  have a := ((hy _ hrc.1 d hd).1).1 hr
  have b := ((hy _ hrc.2 d hd).2.1).1 hc
  have e := ((hy _ (getBox_lt hb) d hd).2.2).1 hx
  intro i hi j hj hsh
  rcases hsh with e1 | e1 | e1
  · simp only at e1; subst e1; exact a j hj
  · simp only at e1; subst e1; exact b i hi
  · exact e i hi j hj e1

theorem inRange_of_set {s s1 : Sudoku} {c : Cell} {d : Int} (hs : Shaped s)
    (hr : InRange s.grid allCells) (h : set s c d = .ok (true, s1)) :
    InRange s1.grid allCells := by
  obtain ⟨-, h1, h9, -⟩ := set_true_spec h
  intro x hx
  rw [cellAt_of_set hs h]
  split
  · omega
  · exact hr x hx

theorem cell_ext {a b : Cell} (h1 : a.row = b.row) (h2 : a.col = b.col) : a = b := by
  cases a; cases b; simp_all

theorem noConflict_of_set {s s1 : Sudoku} {c : Cell} {d : Int} (hs : Shaped s)
    (hy : DigitSync s) (hn : ¬ Conflict s.grid) (h : set s c d = .ok (true, s1)) :
    ¬ Conflict s1.grid := by
  have hcell := cellAt_of_set hs h
  obtain ⟨hb, h1, h9, hr, hc, hx, -⟩ := set_true_spec h
  have hno := noClash_of_mem_slots hy hb h1 h9 hr hc hx
  rintro ⟨a, ha, b, hbm, hne, hz, heq, hsh⟩
  have hab := inBounds_iff.1 (mem_allCells.1 ha)
  have hbb := inBounds_iff.1 (mem_allCells.1 hbm)
  rw [hcell] at hz heq
  rw [hcell] at heq
  by_cases ea : a.row = c.row ∧ a.col = c.col
  · have eac : a = c := cell_ext ea.1 ea.2
    have eb : ¬ (b.row = c.row ∧ b.col = c.col) := by
      rintro ⟨e1, e2⟩
      exact hne (eac.trans (cell_ext e1 e2).symm)
    simp only [ea, and_self, if_true, eb, if_false] at heq
    have hsh2 : SharesUnit (Cell.mk b.row b.col) c := by
      rw [← eac]; exact sharesUnit_symm hsh
    exact hno b.row hbb.1 b.col hbb.2 hsh2 heq.symm
  · by_cases eb : b.row = c.row ∧ b.col = c.col
    · have ebc : b = c := cell_ext eb.1 eb.2
      simp only [ea, if_false, eb, and_self, if_true] at heq
      have hsh2 : SharesUnit (Cell.mk a.row a.col) c := by
        rw [← ebc]; exact hsh
      exact hno a.row hab.1 a.col hab.2 hsh2 heq
    · simp only [ea, if_false, eb] at heq hz
      exact hn ⟨a, ha, b, hbm, hne, hz, heq, hsh⟩

theorem dataModel_of_set {s s1 : Sudoku} {c : Cell} {d : Int} (hs : Shaped s)
    (hm : DataModel s) (hblank : cellAt s.grid c.row c.col = 0)
    (h : set s c d = .ok (true, s1)) : DataModel s1 :=
  ⟨inRange_of_set hs hm.1 h, digitSync_of_set hs hm.2.1 hblank h,
    noConflict_of_set hs hm.2.1 hm.2.2 h⟩

/-! ## The placement and retraction primitives -/

/-- C15. For an in-bounds cell (r,c) and a digit d in 1..9, `set` returns, and it returns
success exactly when d is in the row-r, column-c and box-((r/3)*3 + c/3) candidate sets;
when it returns failure the grid and the three registries are as before the call. -/
theorem set_success_iff (s : Sudoku) (c : Cell) (d : Int) (hb : inBounds c = true)
    (h1 : 1 ≤ d) (h9 : d ≤ 9) :
    ∃ ret s1, set s c d = .ok (ret, s1) ∧
      (ret = true ↔
        d ∈ slot s.rowCandidates c.row ∧ d ∈ slot s.colCandidates c.col ∧
          d ∈ slot s.boxCandidates ((c.row / 3) * 3 + c.col / 3)) ∧
      (ret = false → s1 = s) := by
  by_cases hm : d ∈ slot s.rowCandidates c.row ∧ d ∈ slot s.colCandidates c.col ∧
      d ∈ slot s.boxCandidates (getBox c)
  · obtain ⟨s1, hset⟩ := set_of_mem s hb h1 h9 hm.1 hm.2.1 hm.2.2
    exact ⟨true, s1, hset, ⟨fun _ => hm, fun _ => rfl⟩, fun h => by cases h⟩
  · exact ⟨false, s, set_of_not_mem s hb h1 h9 hm,
      ⟨fun h => Bool.noConfusion h, fun h => absurd h hm⟩, fun _ => rfl⟩

/-- Witness for C15: the cell (0,0) and the digit 8 on the engine of the demo clue grid. -/
theorem set_success_iff_witness :
    inBounds (Cell.mk 0 0) = true ∧ (1 : Int) ≤ 8 ∧ (8 : Int) ≤ 9 ∧
    ∃ ret s1, set (engineOf puzzle1) (Cell.mk 0 0) 8 = .ok (ret, s1) ∧
      (ret = true ↔
        (8 : Int) ∈ slot (engineOf puzzle1).rowCandidates 0 ∧
          (8 : Int) ∈ slot (engineOf puzzle1).colCandidates 0 ∧
          (8 : Int) ∈ slot (engineOf puzzle1).boxCandidates ((0 / 3) * 3 + 0 / 3)) ∧
      (ret = false → s1 = engineOf puzzle1) :=
  ⟨by decide, by decide, by decide,
    set_success_iff (engineOf puzzle1) (Cell.mk 0 0) 8 (by decide) (by decide) (by decide)⟩

/-- C16. When `set` returns success on cell (r,c) with digit d: afterwards the cell holds
d and d is absent from the row-r, column-c and box candidate sets; every other grid cell,
every other row, column and box slot, and the membership of every other digit in those
three slots are as before (the three slots are the old ones with d erased). -/
theorem set_success_frame (s s1 : Sudoku) (c : Cell) (d : Int) (hs : Shaped s)
    (h : set s c d = .ok (true, s1)) :
    cellAt s1.grid c.row c.col = d ∧
    d ∉ slot s1.rowCandidates c.row ∧ d ∉ slot s1.colCandidates c.col ∧
    d ∉ slot s1.boxCandidates (getBox c) ∧
    (∀ i j, ¬ (i = c.row ∧ j = c.col) → cellAt s1.grid i j = cellAt s.grid i j) ∧
    (∀ k, k ≠ c.row → slot s1.rowCandidates k = slot s.rowCandidates k) ∧
    (∀ k, k ≠ c.col → slot s1.colCandidates k = slot s.colCandidates k) ∧
    (∀ k, k ≠ getBox c → slot s1.boxCandidates k = slot s.boxCandidates k) ∧
    (∀ x, x ≠ d →
      (x ∈ slot s1.rowCandidates c.row ↔ x ∈ slot s.rowCandidates c.row) ∧
      (x ∈ slot s1.colCandidates c.col ↔ x ∈ slot s.colCandidates c.col) ∧
      (x ∈ slot s1.boxCandidates (getBox c) ↔ x ∈ slot s.boxCandidates (getBox c))) ∧
    slot s1.rowCandidates c.row = setErase (slot s.rowCandidates c.row) d ∧
    slot s1.colCandidates c.col = setErase (slot s.colCandidates c.col) d ∧
    slot s1.boxCandidates (getBox c) = setErase (slot s.boxCandidates (getBox c)) d ∧
    Shaped s1 := by
  have hcell := cellAt_of_set hs h
  have er := (slots_of_set hs h c.row).1
  have ec := (slots_of_set hs h c.col).2.1
  have ex := (slots_of_set hs h (getBox c)).2.2
  simp only [if_true] at er ec ex
  refine ⟨by rw [hcell]; simp, ?_, ?_, ?_, ?_, ?_, ?_, ?_, ?_, er, ec, ex, shaped_of_set hs h⟩
  · rw [er, mem_setErase]; exact fun h => h.2 rfl
  · rw [ec, mem_setErase]; exact fun h => h.2 rfl
  · rw [ex, mem_setErase]; exact fun h => h.2 rfl
  · intro i j hij
    rw [hcell, if_neg hij]
  · intro k hk
    rw [(slots_of_set hs h k).1, if_neg hk]
  · intro k hk
    rw [(slots_of_set hs h k).2.1, if_neg hk]
  · intro k hk
    rw [(slots_of_set hs h k).2.2, if_neg hk]
  · intro x hx
    rw [er, ec, ex, mem_setErase, mem_setErase, mem_setErase]
    exact ⟨⟨fun h => h.1, fun h => ⟨h, hx⟩⟩, ⟨fun h => h.1, fun h => ⟨h, hx⟩⟩,
      ⟨fun h => h.1, fun h => ⟨h, hx⟩⟩⟩

/-- Witness for C16: `set` of 8 on the blank cell (0,0) of the demo engine succeeds. -/
theorem set_success_frame_witness :
    Shaped (engineOf puzzle1) ∧
    set (engineOf puzzle1) (Cell.mk 0 0) 8 =
      .ok (true, afterSet (engineOf puzzle1) (Cell.mk 0 0) 8) ∧
    cellAt (afterSet (engineOf puzzle1) (Cell.mk 0 0) 8).grid 0 0 = 8 :=
  ⟨by decide, by decide,
    (set_success_frame (engineOf puzzle1) (afterSet (engineOf puzzle1) (Cell.mk 0 0) 8)
      (Cell.mk 0 0) 8 (by decide) (by decide)).1⟩

/-- C17. On an engine state whose registry slots are `std::set`s, for an in-bounds blank
cell: `unset` of the cell changes nothing, and when `set` of a digit on the cell returns
success, `unset` of the cell on the result gives back exactly the original state, grid and
all three registries. -/
theorem unset_after_set (s : Sudoku) (c : Cell) (hs : Shaped s) (hsets : SetsSorted s)
    (hb : inBounds c = true) (hblank : cellAt s.grid c.row c.col = 0) :
    unset s c = .ok s ∧
    ∀ d s1, set s c d = .ok (true, s1) → unset s1 c = .ok s := by
  constructor
  · simp [unset, hb, hblank, blank]
  · intro d s1 h
    have hcell := cellAt_of_set hs h
    obtain ⟨-, h1, h9, hr, hc, hx, e1, e2, e3, e4⟩ := set_true_spec h
    have hrc := inBounds_iff.1 hb
    obtain ⟨l1, l2, l3⟩ := shaped_rows hs hb
    have hval : cellAt s1.grid c.row c.col = d := by rw [hcell]; simp
    have hnz : ¬ d = blank := by simp only [blank]; omega
    have er := (slots_of_set hs h c.row).1
    have ec := (slots_of_set hs h c.col).2.1
    have ex := (slots_of_set hs h (getBox c)).2.2
    simp only [if_true] at er ec ex
    unfold unset
    simp only [hb, Bool.not_true, Bool.false_eq_true, if_false, hval, hnz, h1, h9,
      decide_True, Bool.and_self]
    rw [er, ec, ex, setInsert_setErase (hsets _ hrc.1).1 hr,
      setInsert_setErase (hsets _ hrc.2).2.1 hc,
      setInsert_setErase (hsets _ (getBox_lt hb)).2.2 hx, e1, e2, e3, e4]
    have g : setCell (setCell s.grid c.row c.col d) c.row c.col blank = s.grid := by
      have := setCell_setCell_restore hs.1 hrc.1 hrc.2 d
      rw [hblank] at this
      exact this
    rw [g]
    have r1 := set_set_restore l1 (setErase (slot s.rowCandidates c.row) d)
    have r2 := set_set_restore l2 (setErase (slot s.colCandidates c.col) d)
    have r3 := set_set_restore l3 (setErase (slot s.boxCandidates (getBox c)) d)
    simp only [slot] at r1 r2 r3 ⊢
    rw [r1, r2, r3]

/-- Witness for C17: the blank cell (0,0) of the demo engine. -/
theorem unset_after_set_witness :
    Shaped (engineOf puzzle1) ∧ SetsSorted (engineOf puzzle1) ∧
    inBounds (Cell.mk 0 0) = true ∧ cellAt (engineOf puzzle1).grid 0 0 = 0 ∧
    unset (engineOf puzzle1) (Cell.mk 0 0) = .ok (engineOf puzzle1) ∧
    (set (engineOf puzzle1) (Cell.mk 0 0) 8 =
        .ok (true, afterSet (engineOf puzzle1) (Cell.mk 0 0) 8) →
      unset (afterSet (engineOf puzzle1) (Cell.mk 0 0) 8) (Cell.mk 0 0) =
        .ok (engineOf puzzle1)) :=
  ⟨by decide, by decide, by decide, by decide,
    (unset_after_set (engineOf puzzle1) (Cell.mk 0 0) (by decide) (by decide) (by decide)
      (by decide)).1,
    (unset_after_set (engineOf puzzle1) (Cell.mk 0 0) (by decide) (by decide) (by decide)
      (by decide)).2 8 _⟩

theorem dataModel_oneClue : Shaped (engineOf oneClue) ∧ DataModel (engineOf oneClue) := by
  decide!

/-- C14, counterexample: the engine of `oneClue` satisfies the data-model invariants and
its cell (0,0) holds the clue 5; `set` of 3 on that cell succeeds, and afterwards 5 is
neither held by a cell of row 0 nor in the row-0 candidate set, so the invariants fail. -/
theorem set_on_clue_breaks_dataModel :
    Shaped (engineOf oneClue) ∧ DataModel (engineOf oneClue) ∧
    inBounds (Cell.mk 0 0) = true ∧ cellAt (engineOf oneClue).grid 0 0 = 5 ∧
    set (engineOf oneClue) (Cell.mk 0 0) 3 =
      .ok (true, afterSet (engineOf oneClue) (Cell.mk 0 0) 3) ∧
    (5 : Int) ∉ slot (afterSet (engineOf oneClue) (Cell.mk 0 0) 3).rowCandidates 0 ∧
    (∀ j < 9, cellAt (afterSet (engineOf oneClue) (Cell.mk 0 0) 3).grid 0 j ≠ 5) ∧
    ¬ DataModel (afterSet (engineOf oneClue) (Cell.mk 0 0) 3) :=
  ⟨dataModel_oneClue.1, dataModel_oneClue.2, by decide!⟩

/-- A successful `set` on a non-blank cell breaks the data-model invariants: the digit it
overwrites is afterwards held by no cell of the row and still missing from the row's
candidate set. -/
theorem dataModel_broken_of_set {s s1 : Sudoku} {c : Cell} {d : Int} (hs : Shaped s)
    (hm : DataModel s) (hocc : cellAt s.grid c.row c.col ≠ 0)
    (h : set s c d = .ok (true, s1)) : ¬ DataModel s1 := by
  have hcell := cellAt_of_set hs h
  obtain ⟨hb, h1, h9, hr, hc, hx, -⟩ := set_true_spec h
  have hrc := inBounds_iff.1 hb
  have hcm : c ∈ allCells := mem_allCells.2 hb
  have hv19 := hm.1 c hcm
  have hv : cellAt s.grid c.row c.col ∈ fullSet := mem_fullSet.2 ⟨by omega, hv19.2⟩
  have hno := noClash_of_mem_slots hm.2.1 hb h1 h9 hr hc hx
  have hvd : cellAt s.grid c.row c.col ≠ d := hno c.row hrc.1 c.col hrc.2 (Or.inl rfl)
  intro hm1
  have hall : ∀ j < 9, cellAt s1.grid c.row j ≠ cellAt s.grid c.row c.col := by
    intro j hj
    rw [hcell]
    by_cases ej : j = c.col
    · simp only [ej, and_self, if_true]
      exact fun e => hvd e.symm
    · simp only [ej, and_false, if_false]
      intro e
      apply hm.2.2
      refine ⟨c, hcm, Cell.mk c.row j, mem_allCells.2 (inBounds_iff.2 ⟨hrc.1, hj⟩), ?_,
        hocc, e.symm, Or.inl rfl⟩
      intro e2
      apply ej
      rw [e2]
  have hin := ((hm1.2.1 c.row hrc.1 _ hv).1).2 hall
  rw [(slots_of_set hs h c.row).1, if_pos rfl] at hin
  have hin0 := (mem_setErase.1 hin).1
  exact ((hm.2.1 c.row hrc.1 _ hv).1).1 hin0 c.col hrc.2 rfl

/-- C14, amended. On an engine state that satisfies the data-model invariants, for an
in-bounds cell (blank or not) and a digit in 1..9, `set` returns, and the state it leaves
satisfies the invariants again whenever the cell was blank or `set` returned failure (and
registries that held digits 1..9 only are then in exact sync); the one remaining case, a
successful `set` on a non-blank cell, always breaks them. -/
theorem set_keeps_dataModel (s : Sudoku) (c : Cell) (d : Int) (hs : Shaped s)
    (hm : DataModel s) (hb : inBounds c = true) (h1 : 1 ≤ d) (h9 : d ≤ 9) :
    ∃ ret s1, set s c d = .ok (ret, s1) ∧ Shaped s1 ∧
      ((cellAt s.grid c.row c.col = 0 ∨ ret = false) →
        DataModel s1 ∧ (OnlyDigits s → Sync s1)) ∧
      (cellAt s.grid c.row c.col ≠ 0 → ret = true → ¬ DataModel s1) := by
  by_cases hmem : d ∈ slot s.rowCandidates c.row ∧ d ∈ slot s.colCandidates c.col ∧
      d ∈ slot s.boxCandidates (getBox c)
  · obtain ⟨s1, hset⟩ := set_of_mem s hb h1 h9 hmem.1 hmem.2.1 hmem.2.2
    refine ⟨true, s1, hset, shaped_of_set hs hset, fun hcase => ?_,
      fun hocc _ => dataModel_broken_of_set hs hm hocc hset⟩
    rcases hcase with hblank | hf
    · exact ⟨dataModel_of_set hs hm hblank hset,
        fun hd => sync_of_set hs (sync_of_digitSync hm.2.1 hd) hblank hset⟩
    · exact Bool.noConfusion hf
  · exact ⟨false, s, set_of_not_mem s hb h1 h9 hmem, hs,
      fun _ => ⟨hm, fun hd => sync_of_digitSync hm.2.1 hd⟩, fun _ hf => Bool.noConfusion hf⟩

/-- Witness for C14: on the engine of `oneClue`, `set` places the digit 3 on the blank cell
(0,1), and the state it leaves satisfies the data-model invariants. -/
theorem set_keeps_dataModel_witness :
    Shaped (engineOf oneClue) ∧ DataModel (engineOf oneClue) ∧
    inBounds (Cell.mk 0 1) = true ∧ (1 : Int) ≤ 3 ∧ (3 : Int) ≤ 9 ∧
    cellAt (engineOf oneClue).grid 0 1 = 0 ∧
    set (engineOf oneClue) (Cell.mk 0 1) 3 =
      .ok (true, afterSet (engineOf oneClue) (Cell.mk 0 1) 3) ∧
    cellAt (afterSet (engineOf oneClue) (Cell.mk 0 1) 3).grid 0 1 = 3 ∧
    DataModel (afterSet (engineOf oneClue) (Cell.mk 0 1) 3) := by
  have hdec : set (engineOf oneClue) (Cell.mk 0 1) 3 =
      .ok (true, afterSet (engineOf oneClue) (Cell.mk 0 1) 3) := by decide
  obtain ⟨ret, s1, hset, -, hkeep, -⟩ :=
    set_keeps_dataModel (engineOf oneClue) (Cell.mk 0 1) 3 dataModel_oneClue.1
      dataModel_oneClue.2 (by decide) (by decide) (by decide)
  rw [hdec] at hset
  simp only [Except.ok.injEq, Prod.mk.injEq] at hset
  obtain ⟨-, e2⟩ := hset
  rw [← e2] at hkeep
  exact ⟨dataModel_oneClue.1, dataModel_oneClue.2, by decide, by decide, by decide,
    by decide, hdec, by decide, (hkeep (Or.inl (by decide))).1⟩

/-! ## The search, on well-formed states -/

theorem getCandidates_length_le {s : Sudoku} {c : Cell} {cands : List Int}
    (h : getCandidates s c = .ok cands) : cands.length ≤ 9 := by
  unfold getCandidates at h
  split at h
  · cases h
  · simp only at h
    split at h
    · cases h
    · rename_i hl
      simp only [Except.ok.injEq] at h
      subst h
      simpa using hl

theorem getCandidates_mem {s : Sudoku} {c : Cell} {cands : List Int}
    (h : getCandidates s c = .ok cands) (d : Int) :
    d ∈ cands ↔ d ∈ slot s.rowCandidates c.row ∧ d ∈ slot s.colCandidates c.col ∧
      d ∈ slot s.boxCandidates (getBox c) := by
  rw [(getCandidates_spec h).2, mem_setIntersection, mem_setIntersection]
  exact ⟨fun h => ⟨h.2.1, h.2.2, h.1⟩, fun h => ⟨h.2.2, h.1, h.2.1⟩⟩

/-- On a well-formed state `getCandidates` passes its assertions on every in-bounds
cell. -/
theorem getCandidates_ok {s : Sudoku} (hw : WellFormed s) {c : Cell}
    (hb : inBounds c = true) : ∃ cands, getCandidates s c = .ok cands := by
  have hx := getBox_lt hb
  have hlen : (setIntersection (slot s.boxCandidates (getBox c))
      (setIntersection (slot s.rowCandidates c.row) (slot s.colCandidates c.col))).length
      ≤ 9 := by
    apply length_le_nine (isSet_setIntersection (hw.2.1 _ hx).2.2 _)
    intro d hd
    exact (hw.2.2 _ hx).2.2 d (mem_setIntersection.1 hd).1
  refine ⟨setIntersection (slot s.boxCandidates (getBox c))
    (setIntersection (slot s.rowCandidates c.row) (slot s.colCandidates c.col)), ?_⟩
  unfold getCandidates
  simp only [hb, Bool.not_true, Bool.false_eq_true, if_false, hlen, decide_True]

theorem scanCells_ok {s : Sudoku} (hw : WellFormed s) :
    ∀ (cs : List Cell) (st : Scan), (∀ c ∈ cs, inBounds c = true) →
      ∃ st2, scanCells s cs st = .ok st2 := by
  intro cs
  induction cs with
  | nil => intro st _; exact ⟨st, rfl⟩
  | cons c cs ih =>
    intro st hcs
    have hrest : ∀ x ∈ cs, inBounds x = true := fun x hx => hcs x (List.mem_cons_of_mem _ hx)
    obtain ⟨tmp, htmp⟩ := getCandidates_ok hw (hcs c (List.mem_cons_self _ _))
    unfold scanCells
    split
    · rw [htmp]
      simp only
      split
      · exact ih _ hrest
      · exact ih _ hrest
    · exact ih _ hrest

theorem getSmallestCandidate_ok {s : Sudoku} (hw : WellFormed s) (c0 : Cell) :
    ∃ cell cands, getSmallestCandidate s c0 [] = .ok (cell, cands) := by
  obtain ⟨st2, hst⟩ := scanCells_ok hw allCells { smallest := 10, cell := c0, candidates := [] }
    (fun c hc => mem_allCells.1 hc)
  have hlen : st2.candidates.length ≤ 9 := by
    rcases scanCells_inv s _ _ _ hst (Or.inl rfl) with e | ⟨-, e⟩
    · rw [e]; simp
    · exact getCandidates_length_le e
  refine ⟨st2.cell, st2.candidates, ?_⟩
  unfold getSmallestCandidate
  rw [hst]
  simp only [hlen, decide_True, Bool.not_true, Bool.false_eq_true, if_false]

/-- The first step of an activation of `solve` that has a candidate: the chosen cell is in
bounds and blank, every candidate is a digit 1..9 found in the three slots of the cell, and
`set` of the candidate succeeds and leaves a well-formed state with one blank cell
fewer. -/
theorem set_candidate_ok {s : Sudoku} (hw : WellFormed s) {c0 cell : Cell}
    {cands : List Int} (hg : getSmallestCandidate s c0 [] = .ok (cell, cands)) {val : Int}
    (hval : val ∈ cands) :
    inBounds cell = true ∧ cellAt s.grid cell.row cell.col = 0 ∧ 1 ≤ val ∧ val ≤ 9 ∧
    val ∈ slot s.rowCandidates cell.row ∧ val ∈ slot s.colCandidates cell.col ∧
    val ∈ slot s.boxCandidates (getBox cell) ∧
    ∃ s1, set s cell val = .ok (true, s1) ∧ WellFormed s1 ∧ blanks s1 + 1 = blanks s := by
  have hne : cands ≠ [] := by
    intro e; rw [e] at hval; cases hval
  obtain ⟨hb, hblank, hc⟩ := getSmallestCandidate_spec hg hne
  obtain ⟨m1, m2, m3⟩ := (getCandidates_mem hc val).1 hval
  have h19 := (hw.2.2 _ (inBounds_iff.1 hb).1).1 val m1
  obtain ⟨s1, hset⟩ := set_of_mem s hb h19.1 h19.2 m1 m2 m3
  exact ⟨hb, hblank, h19.1, h19.2, m1, m2, m3, s1, hset, wellFormed_of_set hw hset,
    blanks_of_set hw.1 hblank hset⟩

/-- On a well-formed state `solve` passes every assertion and answers `true`, within any
recursion budget above the number of blank cells. -/
theorem solveFuel_ok :
    ∀ (fuel : Nat) (s : Sudoku), WellFormed s → blanks s < fuel →
      ∃ s2, solveFuel fuel s = .ok (true, s2) := by
  intro fuel
  induction fuel with
  | zero => intro s _ h; exact absurd h (Nat.not_lt_zero _)
  | succ n ih =>
    intro s hw hlt
    obtain ⟨cell, cands, hg⟩ := getSmallestCandidate_ok hw (Cell.mk 0 0)
    have e : solveFuel (n + 1) s = solveBody (solveFuel n) s := rfl
    rw [e]
    unfold solveBody
    rw [hg]
    simp only
    cases cands with
    | nil => exact ⟨s, by simp⟩
    | cons val rest =>
      obtain ⟨-, -, -, -, -, -, -, s1, hset, hw1, hb1⟩ :=
        set_candidate_ok hw hg (List.mem_cons_self val rest)
      rw [if_neg (by simp), tryCandidates_cons (solveFuel_ne_false n), hset]
      simp only [Bool.not_true, Bool.false_eq_true, if_false]
      exact ih s1 hw1 (by omega)

/-- A property of states that every successful `set` on a blank in-bounds cell keeps is
kept by `solve`. -/
theorem solveFuel_preserves (P : Sudoku → Prop)
    (hP : ∀ (s : Sudoku) (c : Cell) (d : Int) (s1 : Sudoku), P s → inBounds c = true →
      cellAt s.grid c.row c.col = 0 → set s c d = .ok (true, s1) → P s1) :
    ∀ (fuel : Nat) (s : Sudoku) (b : Bool) (s2 : Sudoku), P s →
      solveFuel fuel s = .ok (b, s2) → P s2 := by
  intro fuel
  induction fuel with
  | zero => intro s b s2 _ h; cases h
  | succ n ih =>
    intro s b s2 hp h
    have e : solveFuel (n + 1) s = solveBody (solveFuel n) s := rfl
    rw [e] at h
    unfold solveBody at h
    cases hg : getSmallestCandidate s (Cell.mk 0 0) [] with
    | error e => rw [hg] at h; cases h
    | ok p =>
      obtain ⟨cell, cands⟩ := p
      rw [hg] at h
      simp only at h
      cases cands with
      | nil =>
        simp only [List.length_nil, if_true, Except.ok.injEq, Prod.mk.injEq] at h
        rw [← h.2]; exact hp
      | cons val rest =>
        have hsp := getSmallestCandidate_spec hg (List.cons_ne_nil _ _)
        rw [if_neg (by simp), tryCandidates_cons (solveFuel_ne_false n)] at h
        cases hset : set s cell val with
        | error e => rw [hset] at h; cases h
        | ok q =>
          obtain ⟨ret, s1⟩ := q
          rw [hset] at h
          cases ret with
          | false => simp at h
          | true =>
            simp only [Bool.not_true, Bool.false_eq_true, if_false] at h
            exact ih s1 b s2 (hP s cell val s1 hp hsp.1 hsp.2.1 hset) h

/-! ## The invariant of the engine -/

theorem invariant_dataModel {s : Sudoku} (h : Invariant s) : DataModel s :=
  ⟨h.2.2.1, sync_digitSync h.2.1, h.2.2.2⟩

theorem invariant_of_set {s s1 : Sudoku} {c : Cell} {d : Int} (hi : Invariant s)
    (hblank : cellAt s.grid c.row c.col = 0) (h : set s c d = .ok (true, s1)) :
    Invariant s1 :=
  ⟨wellFormed_of_set hi.1 h, sync_of_set hi.1.1 hi.2.1 hblank h,
    inRange_of_set hi.1.1 hi.2.2.1 h,
    noConflict_of_set hi.1.1 (sync_digitSync hi.2.1) hi.2.2.2 h⟩

theorem wellFormed_initial : WellFormed initial := by
  decide

theorem invariant_initial : Invariant initial := by
  refine ⟨wellFormed_initial, sync_initial, fun c _ => ?_, ?_⟩
  · rw [cellAt_initial]; omega
  · rintro ⟨a, -, b, -, -, hz, -⟩
    exact hz (cellAt_initial _ _)

theorem placeClues_invariant (input : List (List Int)) :
    ∀ (cs : List Cell) (s s2 : Sudoku), cs.Nodup →
      (∀ c ∈ cs, cellAt s.grid c.row c.col = 0) → Invariant s →
      placeClues input cs s = .ok s2 → Invariant s2 := by
  intro cs
  induction cs with
  | nil =>
    intro s s2 _ _ hi h
    simp only [placeClues, Except.ok.injEq] at h
    rw [← h]; exact hi
  | cons c cs ih =>
    intro s s2 hnd hcells hi h
    rw [List.nodup_cons] at hnd
    have hrest : ∀ x ∈ cs, cellAt s.grid x.row x.col = 0 :=
      fun x hx => hcells x (List.mem_cons_of_mem _ hx)
    unfold placeClues at h
    simp only at h
    split at h
    · exact ih s s2 hnd.2 hrest hi h
    · split at h
      · cases h
      · split at h
        · cases h
        · rename_i s1 hset
          have hblank := hcells c (List.mem_cons_self _ _)
          refine ih s1 s2 hnd.2 (fun x hx => ?_) (invariant_of_set hi hblank hset) h
          rw [cellAt_of_set hi.1.1 hset]
          have hne : ¬ (x.row = c.row ∧ x.col = c.col) := by
            rintro ⟨e1, e2⟩
            apply hnd.1
            rw [← cell_ext e1 e2]; exact hx
          simp only [hne, if_false]
          exact hrest x hx
        · cases h

/-- Every engine the constructor returns satisfies the invariant. -/
theorem invariant_of_construct {input : List (List Int)} {s : Sudoku}
    (h : construct input = .ok s) : Invariant s := by
  have h9 : NineByNine input := by
    by_contra hn
    rw [construct_of_not_nineByNine hn] at h
    cases h
  rw [construct_of_nineByNine h9] at h
  exact placeClues_invariant input allCells initial s nodup_allCells
    (fun c _ => cellAt_initial _ _) invariant_initial h

theorem solveFuel_invariant {fuel : Nat} {s s2 : Sudoku} {b : Bool} (hi : Invariant s)
    (h : solveFuel fuel s = .ok (b, s2)) : Invariant s2 :=
  solveFuel_preserves Invariant
    (fun _ _ _ _ hp _ hblank hset => invariant_of_set hp hblank hset) fuel s b s2 hi h

theorem solve_ok {s : Sudoku} (hw : WellFormed s) : ∃ s2, solve s = .ok (true, s2) :=
  solveFuel_ok 82 s hw (by have := blanks_le s; omega)

theorem solveFuel_ne_assertion :
    ∀ (fuel : Nat) (s : Sudoku), WellFormed s → solveFuel fuel s ≠ .error .assertion := by
  intro fuel
  induction fuel with
  | zero => intro s _ h; cases h
  | succ n ih =>
    intro s hw
    obtain ⟨cell, cands, hg⟩ := getSmallestCandidate_ok hw (Cell.mk 0 0)
    have e : solveFuel (n + 1) s = solveBody (solveFuel n) s := rfl
    rw [e]
    unfold solveBody
    rw [hg]
    simp only
    cases cands with
    | nil => intro h; simp at h
    | cons val rest =>
      obtain ⟨-, -, -, -, -, -, -, s1, hset, hw1, -⟩ :=
        set_candidate_ok hw hg (List.mem_cons_self val rest)
      rw [if_neg (by simp), tryCandidates_cons (solveFuel_ne_false n), hset]
      simp only [Bool.not_true, Bool.false_eq_true, if_false]
      exact ih s1 hw1

/-! ## Claims about the search -/

/-- C11. No activation of `solve` answers `false`; on every engine the constructor returns
(and on every well-formed state) `solve` returns `true`; and the candidate loop never gets
past its first candidate, so no digit is retracted. -/
theorem solve_always_true :
    (∀ fuel s s2, solveFuel fuel s ≠ .ok (false, s2)) ∧
    (∀ s s2, solve s ≠ .ok (false, s2)) ∧
    (∀ input s, construct input = .ok s → ∃ s2, solve s = .ok (true, s2)) ∧
    (∀ s, WellFormed s → ∃ s2, solve s = .ok (true, s2)) ∧
    (∀ fuel cell val rest s,
      tryCandidates (solveFuel fuel) cell (val :: rest) s =
        tryCandidates (solveFuel fuel) cell [val] s) := by
  refine ⟨solveFuel_ne_false, fun s s2 => solveFuel_ne_false 82 s s2,
    fun input s h => solve_ok (invariant_of_construct h).1, fun s hw => solve_ok hw,
    fun fuel cell val rest s => ?_⟩
  rw [tryCandidates_cons (solveFuel_ne_false fuel), tryCandidates_cons (solveFuel_ne_false fuel)]

/-- Witness for C11: the constructor accepts the demo clue grid. -/
theorem solve_always_true_witness :
    construct puzzle1 = .ok (engineOf puzzle1) ∧
    ∃ s2, solve (engineOf puzzle1) = .ok (true, s2) :=
  ⟨by decide, solve_always_true.2.2.1 puzzle1 (engineOf puzzle1) (by decide)⟩

/-- C12. Every cell that is non-blank when `solve` is called holds the same digit when
`solve` returns (and on a well-formed state `solve` does return). -/
theorem solve_keeps_clues (s : Sudoku) (hs : Shaped s) :
    (∀ fuel b s2, solveFuel fuel s = .ok (b, s2) →
      ∀ i j, cellAt s.grid i j ≠ 0 → cellAt s2.grid i j = cellAt s.grid i j) ∧
    (∀ b s2, solve s = .ok (b, s2) →
      ∀ i j, cellAt s.grid i j ≠ 0 → cellAt s2.grid i j = cellAt s.grid i j) ∧
    (WellFormed s → ∃ s2, solve s = .ok (true, s2)) := by
  have key : ∀ fuel b s2, solveFuel fuel s = .ok (b, s2) →
      Shaped s2 ∧ ∀ i j, cellAt s.grid i j ≠ 0 → cellAt s2.grid i j = cellAt s.grid i j := by
    intro fuel b s2 h
    refine solveFuel_preserves
      (fun t => Shaped t ∧ ∀ i j, cellAt s.grid i j ≠ 0 → cellAt t.grid i j = cellAt s.grid i j)
      ?_ fuel s b s2 ⟨hs, fun _ _ _ => rfl⟩ h
    intro t c d t1 hp _ hblank hset
    refine ⟨shaped_of_set hp.1 hset, fun i j hij => ?_⟩
    rw [cellAt_of_set hp.1 hset]
    have hne : ¬ (i = c.row ∧ j = c.col) := by
      rintro ⟨e1, e2⟩
      have := hp.2 i j hij
      rw [e1, e2, hblank] at this
      rw [e1, e2] at hij
      exact hij this.symm
    simp only [hne, if_false]
    exact hp.2 i j hij
  exact ⟨fun fuel b s2 h => (key fuel b s2 h).2, fun b s2 h => (key 82 b s2 h).2,
    fun hw => solve_ok hw⟩

/-- Witness for C12: the engine of the demo clue grid has the constructor's shape. -/
theorem solve_keeps_clues_witness :
    Shaped (engineOf puzzle1) ∧ WellFormed (engineOf puzzle1) ∧
    ∃ s2, solve (engineOf puzzle1) = .ok (true, s2) :=
  ⟨by decide, by decide, (solve_keeps_clues (engineOf puzzle1) (by decide)).2.2 (by decide)⟩

/-- C13. The state a successful construction produces, and the state `solve` leaves on
it, satisfy the data-model invariants: the registries are in sync with the grid (a slot
holds exactly the digits 1..9 that no cell of its row, column or box holds), every cell
value lies in 0..9, and no two cells of one row, column or box hold the same non-blank
digit; and `solve` does return on it. -/
theorem construct_solve_dataModel (input : List (List Int)) (s : Sudoku)
    (h : construct input = .ok s) :
    (DataModel s ∧ Sync s ∧ WellFormed s) ∧
    (∃ s2, solve s = .ok (true, s2)) ∧
    (∀ b s2, solve s = .ok (b, s2) → DataModel s2 ∧ Sync s2 ∧ WellFormed s2) := by
  have hi := invariant_of_construct h
  refine ⟨⟨invariant_dataModel hi, hi.2.1, hi.1⟩, solve_ok hi.1, fun b s2 hsol => ?_⟩
  have hi2 : Invariant s2 := solveFuel_invariant hi hsol
  exact ⟨invariant_dataModel hi2, hi2.2.1, hi2.1⟩

/-- Witness for C13: the constructor accepts the demo clue grid. -/
theorem construct_solve_dataModel_witness :
    construct puzzle1 = .ok (engineOf puzzle1) ∧
    DataModel (engineOf puzzle1) ∧ ∃ s2, solve (engineOf puzzle1) = .ok (true, s2) :=
  ⟨by decide, (construct_solve_dataModel puzzle1 (engineOf puzzle1) (by decide)).1.1,
    (construct_solve_dataModel puzzle1 (engineOf puzzle1) (by decide)).2.1⟩

/-- C20. In `solve`, `set` never answers `false` for a candidate of the chosen cell, on
any state. On a well-formed state no assertion fails in the whole run: the chosen cell is
in bounds and blank, every candidate is a digit 1..9 that is in the row, column and box
candidate sets of the cell, `set` of it returns success and leaves a well-formed state,
and `solve` returns `true`. -/
theorem solve_assert_never_fails (s : Sudoku) :
    (∀ cell cands val s1, getSmallestCandidate s (Cell.mk 0 0) [] = .ok (cell, cands) →
      val ∈ cands → set s cell val ≠ .ok (false, s1)) ∧
    (WellFormed s →
      (∀ fuel, solveFuel fuel s ≠ .error .assertion) ∧
      (∃ s2, solve s = .ok (true, s2)) ∧
      (∃ cell cands, getSmallestCandidate s (Cell.mk 0 0) [] = .ok (cell, cands)) ∧
      ∀ cell cands val, getSmallestCandidate s (Cell.mk 0 0) [] = .ok (cell, cands) →
        val ∈ cands →
        inBounds cell = true ∧ cellAt s.grid cell.row cell.col = 0 ∧ 1 ≤ val ∧ val ≤ 9 ∧
        val ∈ slot s.rowCandidates cell.row ∧ val ∈ slot s.colCandidates cell.col ∧
        val ∈ slot s.boxCandidates (getBox cell) ∧
        ∃ s1, set s cell val = .ok (true, s1) ∧ WellFormed s1 ∧
          blanks s1 + 1 = blanks s) := by
  constructor
  · intro cell cands val s1 hg hval hset
    have hne : cands ≠ [] := by
      intro e; rw [e] at hval; cases hval
    obtain ⟨hb, -, hc⟩ := getSmallestCandidate_spec hg hne
    obtain ⟨m1, m2, m3⟩ := (getCandidates_mem hc val).1 hval
    unfold set at hset
    split at hset
    · cases hset
    · split at hset
      · cases hset
      · simp only at hset
        rw [if_pos (by simp [m1, m2, m3])] at hset
        cases hset
  · intro hw
    exact ⟨fun fuel => solveFuel_ne_assertion fuel s hw, solve_ok hw,
      getSmallestCandidate_ok hw _, fun cell cands val hg hval => set_candidate_ok hw hg hval⟩

/-- Witness for C20: the engine of the demo clue grid is well-formed. -/
theorem solve_assert_never_fails_witness :
    WellFormed (engineOf puzzle1) ∧
    (∀ fuel, solveFuel fuel (engineOf puzzle1) ≠ .error .assertion) ∧
    ∃ s2, solve (engineOf puzzle1) = .ok (true, s2) :=
  ⟨by decide, ((solve_assert_never_fails (engineOf puzzle1)).2 (by decide)).1,
    ((solve_assert_never_fails (engineOf puzzle1)).2 (by decide)).2.1⟩

/-! ## Candidate query and selection -/

/-- C18. On a state whose registries are in sync with the grid, for an in-bounds cell
(blank or not), `getCandidates` returns a set whose elements are exactly the digits 1..9
that no cell of the row, column or box of the cell holds, which is the intersection of the
three candidate slots; it has at most 9 elements. -/
theorem getCandidates_exact (s : Sudoku) (c : Cell) (hs : Shaped s) (hsets : SetsSorted s)
    (hy : Sync s) (hb : inBounds c = true) :
    ∃ cands, getCandidates s c = .ok cands ∧
      (∀ d, d ∈ cands ↔ 1 ≤ d ∧ d ≤ 9 ∧ NoClash s.grid c d) ∧
      (∀ d, d ∈ cands ↔ d ∈ slot s.rowCandidates c.row ∧ d ∈ slot s.colCandidates c.col ∧
        d ∈ slot s.boxCandidates (getBox c)) ∧
      IsSet cands ∧ cands.length ≤ 9 := by
  obtain ⟨cands, hc⟩ := getCandidates_ok ⟨hs, hsets, sync_onlyDigits hy⟩ hb
  refine ⟨cands, hc, fun d => ?_, getCandidates_mem hc, ?_, getCandidates_length_le hc⟩
  · rw [getCandidates_mem hc]
    constructor
    · intro hm
      have h19 := (sync_onlyDigits hy _ (inBounds_iff.1 hb).1).1 d hm.1
      exact ⟨h19.1, h19.2, (mem_slots_iff_noClash hy hb h19.1 h19.2).1 hm⟩
    · rintro ⟨h1, h9, hn⟩
      exact (mem_slots_iff_noClash hy hb h1 h9).2 hn
  · rw [(getCandidates_spec hc).2]
    exact isSet_setIntersection (hsets _ (getBox_lt hb)).2.2 _

/-- Witness for C18: the blank cell (0,0) of the engine of the demo clue grid, whose
registries are in sync because the constructor built it. -/
theorem getCandidates_exact_witness :
    Shaped (engineOf puzzle1) ∧ SetsSorted (engineOf puzzle1) ∧ Sync (engineOf puzzle1) ∧
    inBounds (Cell.mk 0 0) = true ∧
    ∃ cands, getCandidates (engineOf puzzle1) (Cell.mk 0 0) = .ok cands ∧
      cands.length ≤ 9 :=
  ⟨by decide, by decide,
    (invariant_of_construct (show construct puzzle1 = .ok (engineOf puzzle1) by decide)).2.1,
    by decide,
    (getCandidates_exact (engineOf puzzle1) (Cell.mk 0 0) (by decide) (by decide)
      (invariant_of_construct
        (show construct puzzle1 = .ok (engineOf puzzle1) by decide)).2.1
      (by decide)).imp (fun _ h => ⟨h.1, h.2.2.2.2⟩)⟩

theorem rowMajor_allCells : allCells.Pairwise RowMajorLt := by
  decide

theorem rowMajorLt_asymm {a b : Cell} (h : RowMajorLt a b) : ¬ RowMajorLt b a := by
  unfold RowMajorLt at *
  omega

/-- What the scan of `getSmallestCandidate` computes: either no blank cell among the cells
scanned beats the smallest size seen before (and the loop variables are untouched), or the
loop variables hold the first blank cell, among those scanned, whose candidate set is
smallest, with that set. -/
theorem scanCells_min (s : Sudoku) :
    ∀ (cs : List Cell) (st st2 : Scan), scanCells s cs st = .ok st2 →
      (st2 = st ∧ ∀ x ∈ cs, cellAt s.grid x.row x.col = 0 →
        ∃ t, getCandidates s x = .ok t ∧ st.smallest ≤ t.length) ∨
      (∃ cs1 c cs2 tmp, cs = cs1 ++ c :: cs2 ∧ cellAt s.grid c.row c.col = 0 ∧
        getCandidates s c = .ok tmp ∧
        st2 = { smallest := tmp.length, cell := c, candidates := tmp } ∧
        tmp.length < st.smallest ∧
        (∀ x ∈ cs1, cellAt s.grid x.row x.col = 0 →
          ∃ t, getCandidates s x = .ok t ∧ tmp.length < t.length) ∧
        (∀ x ∈ cs2, cellAt s.grid x.row x.col = 0 →
          ∃ t, getCandidates s x = .ok t ∧ tmp.length ≤ t.length)) := by
  intro cs
  induction cs with
  | nil =>
    intro st st2 h
    simp only [scanCells, Except.ok.injEq] at h
    exact Or.inl ⟨h.symm, fun x hx => absurd hx (List.not_mem_nil x)⟩
  | cons c cs ih =>
    intro st st2 h
    unfold scanCells at h
    split at h
    · rename_i hz
      have hz0 : cellAt s.grid c.row c.col = 0 := hz
      split at h
      · cases h
      · rename_i tmp htmp
        split at h
        · rename_i hlt
          rcases ih _ _ h with ⟨e, hall⟩ | ⟨cs1, c2, cs2, t2, e, hb2, hc2, est, hlt2, h1, h2⟩
          · refine Or.inr ⟨[], c, cs, tmp, rfl, hz0, htmp, e, hlt,
              fun x hx => absurd hx (List.not_mem_nil x), hall⟩
          · simp only at hlt2
            refine Or.inr ⟨c :: cs1, c2, cs2, t2, by rw [e]; rfl, hb2, hc2, est,
              by omega, fun x hx hxz => ?_, h2⟩
            rcases List.mem_cons.1 hx with e1 | e1
            · subst e1
              exact ⟨tmp, htmp, hlt2⟩
            · exact h1 x e1 hxz
        · rename_i hge
          rcases ih _ _ h with ⟨e, hall⟩ | ⟨cs1, c2, cs2, t2, e, hb2, hc2, est, hlt2, h1, h2⟩
          · refine Or.inl ⟨e, fun x hx hxz => ?_⟩
            rcases List.mem_cons.1 hx with e1 | e1
            · subst e1
              exact ⟨tmp, htmp, by omega⟩
            · exact hall x e1 hxz
          · refine Or.inr ⟨c :: cs1, c2, cs2, t2, by rw [e]; rfl, hb2, hc2, est, hlt2,
              fun x hx hxz => ?_, h2⟩
            rcases List.mem_cons.1 hx with e1 | e1
            · subst e1
              exact ⟨tmp, htmp, by omega⟩
            · exact h1 x e1 hxz
    · rename_i hz
      have hz0 : ¬ cellAt s.grid c.row c.col = 0 := hz
      rcases ih _ _ h with ⟨e, hall⟩ | ⟨cs1, c2, cs2, t2, e, hb2, hc2, est, hlt2, h1, h2⟩
      · refine Or.inl ⟨e, fun x hx hxz => ?_⟩
        rcases List.mem_cons.1 hx with e1 | e1
        · subst e1
          exact absurd hxz hz0
        · exact hall x e1 hxz
      · refine Or.inr ⟨c :: cs1, c2, cs2, t2, by rw [e]; rfl, hb2, hc2, est, hlt2,
          fun x hx hxz => ?_, h2⟩
        rcases List.mem_cons.1 hx with e1 | e1
        · subst e1
          exact absurd hxz hz0
        · exact h1 x e1 hxz

theorem getSmallestCandidate_of_scan {s : Sudoku} {c0 : Cell} {st2 : Scan}
    (hst : scanCells s allCells { smallest := 10, cell := c0, candidates := [] } = .ok st2)
    (hlen : st2.candidates.length ≤ 9) :
    getSmallestCandidate s c0 [] = .ok (st2.cell, st2.candidates) := by
  unfold getSmallestCandidate
  rw [hst]
  simp only [hlen, decide_True, Bool.not_true, Bool.false_eq_true, if_false]

/-- C19. On a well-formed state with a blank cell, `getSmallestCandidate`, called with an
empty output set, returns a blank in-bounds cell together with exactly `getCandidates` of
that cell; no blank cell has a strictly smaller candidate set, and every blank cell that
precedes it in row-major order has a strictly larger one. On a state without blank cell it
returns the empty candidate set (and the cell passed in). -/
theorem getSmallestCandidate_min (s : Sudoku) (hw : WellFormed s) (c0 : Cell) :
    ((∃ x, inBounds x = true ∧ cellAt s.grid x.row x.col = 0) →
      ∃ cell cands, getSmallestCandidate s c0 [] = .ok (cell, cands) ∧
        inBounds cell = true ∧ cellAt s.grid cell.row cell.col = 0 ∧
        getCandidates s cell = .ok cands ∧
        ∀ x, inBounds x = true → cellAt s.grid x.row x.col = 0 →
          ∃ t, getCandidates s x = .ok t ∧ cands.length ≤ t.length ∧
            (RowMajorLt x cell → cands.length < t.length)) ∧
    ((∀ x, inBounds x = true → cellAt s.grid x.row x.col ≠ 0) →
      getSmallestCandidate s c0 [] = .ok (c0, [])) := by
  obtain ⟨st2, hst⟩ := scanCells_ok hw allCells { smallest := 10, cell := c0, candidates := [] }
    (fun c hc => mem_allCells.1 hc)
  rcases scanCells_min s allCells _ st2 hst with
    ⟨e, hall⟩ | ⟨cs1, c, cs2, tmp, e, hbl, hc, est, -, h1, h2⟩
  · constructor
    · rintro ⟨x, hxb, hxz⟩
      obtain ⟨t, ht, hge⟩ := hall x (mem_allCells.2 hxb) hxz
      have := getCandidates_length_le ht
      simp only at hge
      omega
    · intro _
      have := getSmallestCandidate_of_scan hst (by rw [e]; simp)
      rw [e] at this
      exact this
  · have hcm : c ∈ allCells := by rw [e]; simp
    have hcb := mem_allCells.1 hcm
    constructor
    · intro _
      have hres := getSmallestCandidate_of_scan hst
        (by rw [est]; exact getCandidates_length_le hc)
      rw [est] at hres
      refine ⟨c, tmp, hres, hcb, hbl, hc, fun x hxb hxz => ?_⟩
      have hpw := rowMajor_allCells
      rw [e, List.pairwise_append] at hpw
      obtain ⟨-, hpc, hcross⟩ := hpw
      rw [List.pairwise_cons] at hpc
      have hxm : x ∈ cs1 ++ c :: cs2 := by rw [← e]; exact mem_allCells.2 hxb
      rcases List.mem_append.1 hxm with hx1 | hx2
      · obtain ⟨t, ht, hlt⟩ := h1 x hx1 hxz
        exact ⟨t, ht, by omega, fun _ => hlt⟩
      · rcases List.mem_cons.1 hx2 with hx3 | hx3
        · subst hx3
          exact ⟨tmp, hc, le_refl _, fun h => absurd h (rowMajorLt_asymm h)⟩
        · obtain ⟨t, ht, hle⟩ := h2 x hx3 hxz
          exact ⟨t, ht, hle, fun h => absurd (hpc.1 x hx3) (rowMajorLt_asymm h)⟩
    · intro hno
      exact absurd hbl (hno c hcb)

/-- Witness for C19: the engine of the demo clue grid is well-formed and its cell (0,0)
is blank. -/
theorem getSmallestCandidate_min_witness :
    WellFormed (engineOf puzzle1) ∧
    (∃ x, inBounds x = true ∧ cellAt (engineOf puzzle1).grid x.row x.col = 0) ∧
    ∃ cell cands, getSmallestCandidate (engineOf puzzle1) (Cell.mk 0 0) [] =
        .ok (cell, cands) ∧
      inBounds cell = true ∧ cellAt (engineOf puzzle1).grid cell.row cell.col = 0 ∧
      getCandidates (engineOf puzzle1) cell = .ok cands :=
  ⟨by decide, ⟨Cell.mk 0 0, by decide, by decide⟩,
    (((getSmallestCandidate_min (engineOf puzzle1) (by decide) (Cell.mk 0 0)).1
      ⟨Cell.mk 0 0, by decide, by decide⟩).imp
        (fun _ h => h.imp (fun _ h2 => ⟨h2.1, h2.2.1, h2.2.2.1, h2.2.2.2.1⟩)))⟩


end Sudoku
